import Mathlib

/-!
# Verification of the Math-Routing-Agent core

A shallow embedding of the routing/fallback engine (`backend/agent_pipeline.py`),
the knowledge-store adapter (`kb_search_tool`, `persist_to_kb`), the cache layer
(`backend/cache_manager.py`), the alternate router (`backend/master_router.py`)
and the human-feedback KB writer (`backend/human_feedback.py`), together with
theorems settling the spec claims about them.

Similarity scores are modelled as rationals and timestamps as integers; embedding
vectors are an abstract type parameter `V`; external collaborators (embedding model, guardrail
filter, web-search provider, generation service) are fields of an `Env` record.
The Qdrant vector store is a list of points; `search` returns the top-k points
ranked by similarity score, descending.
-/

namespace MathAgent

/-- ASCII lowercasing, character-list based (Python `.lower()` on the ASCII range). -/
def lowerStr (s : String) : String :=
  ⟨s.data.map Char.toLower⟩

/-- Split a character list into maximal whitespace-free words (Python `.split()`,
which drops empty fragments). `acc` carries the current word reversed. -/
def wordsAux (acc : List Char) : List Char → List (List Char)
  | [] => if acc.isEmpty then [] else [acc.reverse]
  | c :: cs =>
    if c.isWhitespace then
      if acc.isEmpty then wordsAux [] cs else acc.reverse :: wordsAux [] cs
    else wordsAux (c :: acc) cs

def words (l : List Char) : List (List Char) :=
  wordsAux [] l

/-- Join words with single spaces (Python `" ".join(...)`). -/
def joinSp : List (List Char) → List Char
  | [] => []
  | [w] => w
  | w :: ws => w ++ ' ' :: joinSp ws

/-- Python `" ".join(q.strip().lower().split())` — whitespace-collapsed,
lowercased question text (`normalize_question` in `agent_pipeline.py`). -/
def normalizeQuestion (q : String) : String :=
  ⟨joinSp (words (q.data.map Char.toLower))⟩

/-- Python `bool(re.search(r"\d", query))` — the query contains a decimal digit. -/
def containsDigit (q : String) : Bool :=
  q.data.any Char.isDigit

/-- Python substring containment over `List Char` (`pat in s`). -/
def listInfix (p : List Char) : List Char → Bool
  | [] => p.isPrefixOf []
  | c :: t => p.isPrefixOf (c :: t) || listInfix p t

/-- Python `pat in s` for strings. -/
def strContains (s pat : String) : Bool :=
  listInfix pat.data s.data

/-- Python `s.replace(pat, rep)`: replace every non-overlapping occurrence of the
non-empty pattern, scanning left to right. `fuel` bounds the recursion (any
`fuel ≥ s.length` computes the full replacement). -/
def replaceCharsAux (pat rep : List Char) : Nat → List Char → List Char
  | 0, s => s
  | fuel + 1, s =>
    match s with
    | [] => []
    | c :: cs =>
      if pat ≠ [] ∧ pat.isPrefixOf (c :: cs) then
        rep ++ replaceCharsAux pat rep fuel (List.drop pat.length (c :: cs))
      else c :: replaceCharsAux pat rep fuel cs

/-- Python `s.replace(pat, rep)` for strings (patterns here are never empty). -/
def replaceAll (s pat rep : String) : String :=
  ⟨replaceCharsAux pat.data rep.data (s.data.length + 1) s.data⟩

/-- Python `a or b` for strings (empty string is falsy). -/
def pyOrS (a b : String) : String :=
  if a = "" then b else a

/-- Python `a or b` where `a` is an optional string and empty strings are falsy. -/
def pyOrOS (a : Option String) (b : String) : String :=
  match a with
  | none => b
  | some s => pyOrS s b

/-! ## Generic insertion sort, used to model ranked vector-store search results
and the cache's `sorted(..., key=last_access)` eviction order. -/

/-- Insert `x` into `l` keeping elements satisfying `le · x` before it. -/
def insertLe (le : α → α → Bool) (x : α) : List α → List α
  | [] => [x]
  | y :: ys => if le y x then y :: insertLe le x ys else x :: y :: ys

/-- Stable insertion sort by the boolean relation `le`. -/
def sortByLe (le : α → α → Bool) : List α → List α
  | [] => []
  | x :: xs => insertLe le x (sortByLe le xs)

theorem insertLe_perm (le : α → α → Bool) (x : α) (l : List α) :
    (insertLe le x l).Perm (x :: l) := by
  induction l with
  | nil => simp [insertLe]
  | cons y ys ih =>
    simp only [insertLe]
    by_cases h : le y x
    · simp only [h, if_pos]
      exact ((ih.cons y).trans (List.Perm.swap x y ys))
    · simp [h]

theorem sortByLe_perm (le : α → α → Bool) (l : List α) :
    (sortByLe le l).Perm l := by
  induction l with
  | nil => simp [sortByLe]
  | cons x xs ih =>
    exact (insertLe_perm le x (sortByLe le xs)).trans (ih.cons x)

theorem mem_sortByLe {le : α → α → Bool} {x : α} {l : List α} :
    x ∈ sortByLe le l ↔ x ∈ l :=
  (sortByLe_perm le l).mem_iff

theorem insertLe_sorted (le : α → α → Bool)
    (htot : ∀ a b, le a b = false → le b a = true)
    (htrans : ∀ a b c, le a b = true → le b c = true → le a c = true)
    (x : α) (l : List α) (hl : l.Pairwise (fun a b => le a b = true)) :
    (insertLe le x l).Pairwise (fun a b => le a b = true) := by
  induction l with
  | nil => simp [insertLe]
  | cons y ys ih =>
    rcases List.pairwise_cons.mp hl with ⟨hy, hys⟩
    simp only [insertLe]
    by_cases h : le y x
    · simp only [h, if_pos]
      refine List.pairwise_cons.mpr ⟨?_, ih hys⟩
      intro z hz
      rcases List.mem_cons.mp ((insertLe_perm le x ys).mem_iff.mp hz) with rfl | hzys
      · exact h
      · exact hy z hzys
    · simp only [h, if_neg, Bool.not_eq_true]
      refine List.pairwise_cons.mpr ⟨?_, hl⟩
      intro z hz
      have hxy : le x y = true := htot _ _ (by simpa using h)
      rcases List.mem_cons.mp hz with rfl | hzys
      · exact hxy
      · exact htrans _ _ _ hxy (hy z hzys)

theorem sortByLe_sorted (le : α → α → Bool)
    (htot : ∀ a b, le a b = false → le b a = true)
    (htrans : ∀ a b c, le a b = true → le b c = true → le a c = true)
    (l : List α) :
    (sortByLe le l).Pairwise (fun a b => le a b = true) := by
  induction l with
  | nil => simp [sortByLe]
  | cons x xs ih => exact insertLe_sorted le htot htrans x (sortByLe le xs) ih

/-- In a sorted (by `le`) list, the head is `le`-below every member. -/
theorem sorted_head_le {le : α → α → Bool} {h : α} {t : List α}
    (hs : (h :: t).Pairwise (fun a b => le a b = true)) :
    ∀ x ∈ h :: t, x = h ∨ le h x = true := by
  intro x hx
  rcases List.mem_cons.mp hx with rfl | hxt
  · exact Or.inl rfl
  · exact Or.inr ((List.pairwise_cons.mp hs).1 x hxt)

/-- `List.find?` returns the unique element satisfying the predicate. -/
theorem find?_eq_of_unique {p : α → Bool} {l : List α} {x : α}
    (hx : x ∈ l) (hpx : p x = true)
    (huniq : ∀ y ∈ l, p y = true → y = x) :
    l.find? p = some x := by
  induction l with
  | nil => cases hx
  | cons a as ih =>
    by_cases hpa : p a
    · have hax : a = x := huniq a (List.mem_cons_self a as) hpa
      subst hax
      simp [List.find?, hpa]
    · have hax : x ∈ as := by
        rcases List.mem_cons.mp hx with rfl | h
        · exact absurd hpx (by simpa using hpa)
        · exact h
      have := ih hax (fun y hy hpy => huniq y (List.mem_cons_of_mem a hy) hpy)
      simp [List.find?, hpa, this]

/-! ## Knowledge-store data model (`math_kb` points and their payloads) -/

/-- The optional `metadata` dict handed to `persist_to_kb` (`topic`/`subtopic`/`difficulty`). -/
structure MetaInfo where
  topic : Option String := none
  subtopic : Option String := none
  difficulty : Option String := none
deriving DecidableEq

/-- A stored point's payload. Absent dict keys are modelled as `none` / `false` / `[]`,
matching every `payload.get(...)` read in the source. `payloadId` is the optional
`payload.get("id")` consulted by `persist_to_kb`'s dedup. -/
structure Payload where
  question : Option String := none
  question_norm : Option String := none
  answer : Option String := none
  steps : Option String := none
  topic : Option String := none
  subtopic : Option String := none
  difficulty : Option String := none
  source : Option String := none
  route_origin : Option String := none
  validated_by_user : Bool := false
  created_at : Option String := none
  additional_sources : List String := []
  payloadId : Option Nat := none
deriving DecidableEq

/-- One Qdrant point of the `math_kb` collection. -/
structure Point (V : Type) where
  id : Nat
  vector : V
  payload : Payload
deriving DecidableEq

/-- A search result: a point together with its similarity score to the query vector. -/
structure ScoredPoint (V : Type) where
  point : Point V
  score : ℚ
deriving DecidableEq

/-- `client.search(collection, query_vector, limit=k)`: all stored points ranked by
similarity to `qv` (cosine, higher first), truncated to the top `k`. -/
def searchTopK (sim : V → V → ℚ) (qv : V) (store : List (Point V)) (k : Nat) :
    List (ScoredPoint V) :=
  (sortByLe (fun a b => decide (b.score ≤ a.score))
    (store.map (fun p => ⟨p, sim qv p.vector⟩))).take k

theorem mem_searchTopK {sim : V → V → ℚ} {qv : V} {store : List (Point V)} {k : Nat}
    {sp : ScoredPoint V} (h : sp ∈ searchTopK sim qv store k) :
    sp.point ∈ store ∧ sp.score = sim qv sp.point.vector := by
  have h1 : sp ∈ store.map (fun p => (⟨p, sim qv p.vector⟩ : ScoredPoint V)) :=
    mem_sortByLe.mp (List.mem_of_mem_take h)
  rcases List.mem_map.mp h1 with ⟨p, hp, rfl⟩
  exact ⟨hp, rfl⟩

/-- A point whose similarity score strictly dominates every other stored point
appears among the top-`k` search results, for any `k ≥ 1`. -/
theorem searchTopK_mem_of_strict_max {sim : V → V → ℚ} {qv : V} {store : List (Point V)}
    {k : Nat} {p : Point V} (hk : 1 ≤ k) (hp : p ∈ store)
    (hmax : ∀ q ∈ store, q ≠ p → sim qv q.vector < sim qv p.vector) :
    (⟨p, sim qv p.vector⟩ : ScoredPoint V) ∈ searchTopK sim qv store k := by
  set le := fun a b : ScoredPoint V => decide (b.score ≤ a.score) with hle
  set l := store.map (fun p => (⟨p, sim qv p.vector⟩ : ScoredPoint V)) with hl
  have hx : (⟨p, sim qv p.vector⟩ : ScoredPoint V) ∈ l :=
    List.mem_map.mpr ⟨p, hp, rfl⟩
  have hxs : (⟨p, sim qv p.vector⟩ : ScoredPoint V) ∈ sortByLe le l :=
    mem_sortByLe.mpr hx
  have hsorted : (sortByLe le l).Pairwise (fun a b => le a b = true) := by
    refine sortByLe_sorted le ?_ ?_ l
    · intro a b hab
      simp only [hle, decide_eq_false_iff_not, not_le, decide_eq_true_eq] at hab ⊢
      exact le_of_lt hab
    · intro a b c hab hbc
      simp only [hle, decide_eq_true_eq] at hab hbc ⊢
      exact le_trans hbc hab
  match hsort : sortByLe le l with
  | [] => rw [hsort] at hxs; cases hxs
  | h :: t =>
    rw [hsort] at hxs hsorted
    have hhl : h ∈ l := mem_sortByLe.mp (hsort ▸ List.mem_cons_self h t)
    rcases List.mem_map.mp hhl with ⟨q, hq, rfl⟩
    have hhead := sorted_head_le hsorted _ hxs
    have hqp : q = p := by
      by_contra hne
      have hlt := hmax q hq hne
      rcases hhead with heq | hle2
      · exact hne (congrArg ScoredPoint.point heq).symm
      · simp only [hle, decide_eq_true_eq] at hle2
        exact absurd hle2 (not_le.mpr hlt)
    subst hqp
    unfold searchTopK
    rw [← hl, ← hle, hsort]
    rcases Nat.exists_eq_add_of_le hk with ⟨m, rfl⟩
    rw [Nat.add_comm 1 m]
    simp [List.take_succ_cons]

/-! ## `kb_search_tool` return values -/

/-- The dict that `kb_search_tool` returns on a match. The regular (non-validated)
semantic branch omits the `validated_by_user` key; since the only consumer reads it
with `.get('validated_by_user', False)`, that absence is modelled as `false`. -/
structure KBHit where
  question : Option String := none
  answer : Option String := none
  steps : Option String := none
  topic : Option String := none
  subtopic : Option String := none
  difficulty : Option String := none
  source : String
  original_source : Option String := none
  validated_by_user : Bool := false
  score : ℚ
deriving DecidableEq

/-- `kb_search_tool`'s three possible results: `None`, a hit dict, or the error dict
built in its `except` clause (a truthy dict whose `score`, read with default 0,
is 0, and which carries no record fields). -/
inductive KBOut
  | noMatch
  | hit (h : KBHit)
  | err
deriving DecidableEq

/-- `payload.get("validated_by_user") or payload.get("route_origin") in ["web", "ai"]`. -/
def trustedPayload (p : Payload) : Bool :=
  p.validated_by_user || p.route_origin == some "web" || p.route_origin == some "ai"

/-- The dict returned for an exact `question_norm` match (top-10 phase). -/
def exactHit (sp : ScoredPoint V) : KBHit :=
  { question := sp.point.payload.question
    answer := sp.point.payload.answer
    steps := sp.point.payload.steps
    topic := sp.point.payload.topic
    subtopic := sp.point.payload.subtopic
    difficulty := sp.point.payload.difficulty
    source := "Knowledge Base (Exact)"
    original_source := sp.point.payload.source
    validated_by_user := sp.point.payload.validated_by_user
    score := sp.score }

/-- The dict returned for a trusted (validated or web/ai-origin) semantic match;
note the source code hard-codes `"validated_by_user": True` here. -/
def validatedHit (sp : ScoredPoint V) : KBHit :=
  { question := sp.point.payload.question
    answer := sp.point.payload.answer
    steps := sp.point.payload.steps
    topic := sp.point.payload.topic
    subtopic := sp.point.payload.subtopic
    difficulty := sp.point.payload.difficulty
    source := "Knowledge Base (User Validated)"
    original_source := sp.point.payload.source
    validated_by_user := true
    score := sp.score }

/-- The dict returned for a regular semantic match (no `validated_by_user` key). -/
def regularHit (sp : ScoredPoint V) : KBHit :=
  { question := sp.point.payload.question
    answer := sp.point.payload.answer
    steps := sp.point.payload.steps
    topic := sp.point.payload.topic
    subtopic := sp.point.payload.subtopic
    difficulty := sp.point.payload.difficulty
    source := "Knowledge Base"
    original_source := sp.point.payload.source
    validated_by_user := false
    score := sp.score }

/-- The top-3 semantic loop of `kb_search_tool`: trusted payloads are accepted at
score ≥ 0.45, all others at score ≥ 0.65; otherwise the loop continues. -/
def semanticScan : List (ScoredPoint V) → Option KBHit
  | [] => none
  | sp :: rest =>
    if trustedPayload sp.point.payload then
      if sp.score ≥ mkRat 45 100 then some (validatedHit sp) else semanticScan rest
    else if sp.score ≥ mkRat 65 100 then some (regularHit sp)
    else semanticScan rest

/-! ## External collaborators and opaque result payloads -/

/-- An opaque answer/result dict (the shape passed through guardrail filtering,
the cache, and `persist_to_kb`). `truthy` models Python dict truthiness of the
filtered payload; `reprStr` models `str(dict)`. -/
structure Res where
  ans : Option String := none
  summary : Option String := none
  steps : Option String := none
  sources : Option (List String) := none
  metadata : Option MetaInfo := none
  truthy : Bool := true
  reprStr : String := ""
deriving DecidableEq

/-- Output dict of `web_search_tool` / `openai_solve_tool`: whether the dict has
an `"answer"` key, whether it has an `"error"` key, and its contents. -/
structure ToolOut where
  hasAnswer : Bool
  hasError : Bool
  res : Res
deriving DecidableEq

/-- The external collaborators of the routing engine: embedding model, vector-store
similarity, guardrail filter, web-search provider, generation service, human-feedback
sink, and the failure switches for the knowledge-store backend. -/
structure Env (V : Type) where
  embed : String → V
  sim : V → V → ℚ
  guardOk : String → Bool
  processKB : KBHit → Bool × Res
  processRes : Res → Bool × Res
  webOut : String → ToolOut
  aiOut : String → ToolOut
  humanRes : String → Res
  improve : String → String → String → String
  kbSearchFails : Bool := false
  persistSearchFails : Bool := false
  upsertFails : Bool := false
  missingCollection : Bool := false
  retryFails : Bool := false

/-! ## The knowledge-store adapter -/

/-- `kb_search_tool(query)` from `agent_pipeline.py`: a broad top-10 search scanned
for an exact normalized-question match (returned immediately, no threshold); for
digit-bearing queries no semantic fallback is attempted; otherwise a top-3 search
is scanned with the 0.45/0.65 thresholds. A backend exception yields the error dict. -/
def kb_search_tool (env : Env V) (store : List (Point V)) (query : String) : KBOut :=
  if env.kbSearchFails then .err
  else
    let nq := normalizeQuestion query
    let qv := env.embed query
    let top10 := searchTopK env.sim qv store 10
    match top10.find? (fun sp => decide (sp.point.payload.question_norm = some nq)) with
    | some sp => .hit (exactHit sp)
    | none =>
      if containsDigit query then .noMatch
      else
        match semanticScan (searchTopK env.sim qv store 3) with
        | some h => .hit h
        | none => .noMatch

/-- `getattr(cand, "id", None) or cand.payload.get("id")`: a point id of 0 is falsy,
so the payload's optional `id` field (usually absent) is consulted instead. The
result is the Python value of that expression (`none` = `None`). -/
def effId (p : Point V) : Option Nat :=
  if p.id ≠ 0 then some p.id else p.payload.payloadId

/-- The dedup scan of `persist_to_kb`: over the top-5 candidates, first the exact
`question_norm` loop (breaking at the first match), then — only when that left
`existing_id` as `None` — the score ≥ 0.95 loop. -/
def dedupTarget (sim : V → V → ℚ) (qv : V) (store : List (Point V)) (nq : String) :
    Option Nat :=
  let cands := searchTopK sim qv store 5
  let e1 : Option Nat :=
    match cands.find? (fun sp => decide (sp.point.payload.question_norm = some nq)) with
    | some c => effId c.point
    | none => none
  match e1 with
  | some i => some i
  | none =>
    match cands.find? (fun sp => decide (sp.score ≥ mkRat 95 100)) with
    | some c => effId c.point
    | none => none

/-- Qdrant `upsert` by point id: replace the points sharing the id, else append. -/
def upsertPoint (store : List (Point V)) (pt : Point V) : List (Point V) :=
  if store.any (fun p => p.id == pt.id) then
    store.map (fun p => if p.id = pt.id then pt else p)
  else store ++ [pt]

/-- The payload `persist_to_kb` freshly builds for every write (update or insert):
`validated_by_user` is always `False` and `source`/`route_origin` are the tier. -/
def freshPayload (origin query : String) (answer steps : Option String)
    (sources : Option (List String)) (metadata : Option MetaInfo)
    (createdAt : String) : Payload :=
  { question := some query
    question_norm := some (normalizeQuestion query)
    answer := answer
    steps := steps
    topic := metadata.bind (·.topic)
    subtopic := metadata.bind (·.subtopic)
    difficulty := metadata.bind (·.difficulty)
    source := some origin
    route_origin := some origin
    validated_by_user := false
    created_at := some createdAt
    additional_sources := sources.getD []
    payloadId := none }

/-- `persist_to_kb(route_origin, query, answer, ...)`: embeds the question text only,
runs the dedup scan (`if existing_id:` — a 0 id is falsy and keeps the fresh
`newId`, i.e. `int(time.time() * 1000)`), then upserts, with the
collection-missing create-and-retry path condensed to the `Env` failure switches.
Returns the success flag and the new store. -/
def persist_to_kb (env : Env V) (store : List (Point V)) (origin query : String)
    (answer steps : Option String) (sources : Option (List String))
    (metadata : Option MetaInfo) (newId : Nat) (createdAt : String) :
    Bool × List (Point V) :=
  let vec := env.embed query
  let nq := normalizeQuestion query
  let payload := freshPayload origin query answer steps sources metadata createdAt
  let existing : Option Nat :=
    if env.persistSearchFails then none else dedupTarget env.sim vec store nq
  let ptId : Nat :=
    match existing with
    | some i => if i ≠ 0 then i else newId
    | none => newId
  let pt : Point V := { id := ptId, vector := vec, payload := payload }
  if env.upsertFails then
    if env.missingCollection then
      if env.retryFails then (false, store)
      else (true, upsertPoint store pt)
    else (false, store)
  else (true, upsertPoint store pt)

/-! ## The cache layer (`cache_manager.py`) -/

/-- The sequential synonym folding of `_generate_cache_key`, applied to the
lowercased, whitespace-collapsed query. -/
def foldSynonyms (s : String) : String :=
  replaceAll (replaceAll (replaceAll (replaceAll (replaceAll (replaceAll s
    "find" "solve") "calculate" "solve") "compute" "solve") "determine" "solve")
    "derivative" "differentiate") "integral" "integrate"

/-- The cache key of a query. The source hashes this string with md5; the hash is
modelled as the folded string itself. -/
def fingerprint (query : String) : String :=
  foldSynonyms (normalizeQuestion query)

/-- One cache entry: `cached_data` merged with its `access_count` / `last_access`
bookkeeping (the source keeps three dicts sharing keys in lock-step). -/
structure CEntry where
  key : String
  result : Res
  route : String
  timestamp : ℤ
  query : String
  createdAt : ℤ
  accessCount : Nat
  lastAccess : ℤ
deriving DecidableEq

/-- The `MathCacheManager` state. -/
structure Cache where
  entries : List CEntry := []
  maxSize : Nat := 1000
  ttl : ℤ := 86400
deriving DecidableEq

def cacheLookup (c : Cache) (k : String) : Option CEntry :=
  c.entries.find? (fun e => e.key == k)

def cacheRemove (c : Cache) (k : String) : Cache :=
  { c with entries := c.entries.filter (fun e => !(e.key == k)) }

/-- `get(query)`: `None` if absent; TTL-expired entries are removed and miss;
otherwise the access statistics are updated and the stored result returned. -/
def cacheGet (c : Cache) (query : String) (now : ℤ) : Option Res × Cache :=
  let k := fingerprint query
  match cacheLookup c k with
  | none => (none, c)
  | some e =>
    if now - e.timestamp > c.ttl then (none, cacheRemove c k)
    else
      (some e.result,
        { c with entries := c.entries.map (fun e' =>
            if e'.key = k then
              { e' with accessCount := e'.accessCount + 1, lastAccess := now }
            else e') })

/-- `get_route_info(query)`: the stored tier label, same TTL rule, no removal. -/
def getRouteInfo (c : Cache) (query : String) (now : ℤ) : Option String :=
  match cacheLookup c (fingerprint query) with
  | none => none
  | some e => if now - e.timestamp > c.ttl then none else some e.route

/-- `_evict_lru_entries`: remove the `max(1, n // 10)` entries with the oldest
`last_access` (stable sort over the current entries). -/
def evictLRU (c : Cache) : Cache :=
  let sortedE := sortByLe (fun a b => decide (a.lastAccess ≤ b.lastAccess)) c.entries
  let toRemove := (sortedE.take (max 1 (sortedE.length / 10))).map (·.key)
  { c with entries := c.entries.filter (fun e => !(toRemove.contains e.key)) }

/-- `set(query, result, route)`: batch-evict when `len(cache) >= max_cache_size`,
then write the entry (replacing in place when the key exists). -/
def cacheSet (c : Cache) (query : String) (result : Res) (route : String) (now : ℤ) :
    Cache :=
  let k := fingerprint query
  let c1 := if c.entries.length ≥ c.maxSize then evictLRU c else c
  let newE : CEntry :=
    { key := k, result := result, route := route, timestamp := now,
      query := query, createdAt := now, accessCount := 1, lastAccess := now }
  if c1.entries.any (fun e => e.key == k) then
    { c1 with entries := c1.entries.map (fun e => if e.key = k then newE else e) }
  else
    { c1 with entries := c1.entries ++ [newE] }

/-! ## The routing engine (`agent_route` in `agent_pipeline.py`) -/

/-- The `ai_first_keywords` list checked against the lowercased query. -/
def aiFirstKeywords : List String :=
  ["invent", "create", "design", "flurble", "fictional", "imagine", "suppose",
   "pretend", "novel", "new mathematical operation"]

/-- `any(keyword in query_lower for keyword in ai_first_keywords)`. -/
def hasInventKeyword (query : String) : Bool :=
  aiFirstKeywords.any (fun kw => strContains (lowerStr query) kw)

/-- The `Res` stood up for the blocked-4xx JSON body (carries no answer). -/
def blockedRes : Res :=
  { truthy := false }

/-- One `agent_route` terminal response together with the post-call cache and
store and the list of downstream tools actually invoked ("kb"/"web"/"ai").
`persisted` mirrors the local `persisted` flag of the Web/AI branches. -/
structure AgentOut (V : Type) where
  route : String
  result : Res
  confidence : String
  cached : Bool := false
  blockedError : Bool := false
  persisted : Bool := false
  cache' : Cache
  store' : List (Point V)
  invoked : List String
deriving DecidableEq

/-- Terminal Human branch: `feedback_system.require_human_feedback`, never cached. -/
def agentHuman (env : Env V) (cache : Cache) (store : List (Point V)) (query : String)
    (invoked : List String) : AgentOut V :=
  { route := "Human", result := env.humanRes query, confidence := "low",
    cache' := cache, store' := store, invoked := invoked }

/-- AI tier: `openai_solve_tool`, output guardrail, persist, cache as KB when the
persist succeeded (else as AI), or fall through to the Human branch. -/
def agentAI (env : Env V) (cache : Cache) (store : List (Point V)) (query : String)
    (now : ℤ) (newId : Nat) (createdAt : String) (invoked : List String) : AgentOut V :=
  let invoked := invoked ++ ["ai"]
  let a := env.aiOut query
  if a.hasAnswer && !a.hasError then
    let pr := env.processRes a.res
    if pr.1 then
      let fr := pr.2
      let pres := persist_to_kb env store "ai" query fr.ans fr.steps fr.sources fr.metadata
        newId createdAt
      let cacheRoute := if pres.1 then "KB" else "AI"
      { route := "AI", result := fr, confidence := "medium", persisted := pres.1,
        cache' := cacheSet cache query fr cacheRoute now, store' := pres.2,
        invoked := invoked }
    else agentHuman env cache store query invoked
  else agentHuman env cache store query invoked

/-- Web tier: `web_search_tool` via MCP, output guardrail, persist, cache as KB when
the persist succeeded (else as Web), or fall through to the AI tier. -/
def agentWeb (env : Env V) (cache : Cache) (store : List (Point V)) (query : String)
    (now : ℤ) (newId : Nat) (createdAt : String) (invoked : List String) : AgentOut V :=
  let invoked := invoked ++ ["web"]
  let w := env.webOut query
  if w.hasAnswer && !w.hasError then
    let pr := env.processRes w.res
    if pr.1 then
      let fr := pr.2
      let pres := persist_to_kb env store "web" query fr.ans fr.steps fr.sources fr.metadata
        newId createdAt
      let cacheRoute := if pres.1 then "KB" else "Web"
      { route := "Web", result := fr, confidence := "medium", persisted := pres.1,
        cache' := cacheSet cache query fr cacheRoute now, store' := pres.2,
        invoked := invoked }
    else agentAI env cache store query now newId createdAt invoked
  else agentAI env cache store query now newId createdAt invoked

/-- The fallback taken when the KB tier supplies no accepted answer: skip the web
tier entirely when an invention keyword is present. -/
def agentFallback (env : Env V) (cache : Cache) (store : List (Point V)) (query : String)
    (now : ℤ) (newId : Nat) (createdAt : String) (invoked : List String) : AgentOut V :=
  if hasInventKeyword query then
    agentAI env cache store query now newId createdAt invoked
  else
    agentWeb env cache store query now newId createdAt invoked

/-- KB tier of `agent_route`: re-threshold the `kb_search_tool` result with
`0.45 if is_validated else 0.65` (the error dict reads as score 0, not validated,
hence always falls through), filter through the output guardrail, cache as KB. -/
def agentKBStage (env : Env V) (cache : Cache) (store : List (Point V)) (query : String)
    (now : ℤ) (newId : Nat) (createdAt : String) : AgentOut V :=
  let invoked := ["kb"]
  match kb_search_tool env store query with
  | .hit h =>
    let threshold : ℚ := if h.validated_by_user then mkRat 45 100 else mkRat 65 100
    if h.score ≥ threshold then
      let pr := env.processKB h
      if pr.1 then
        { route := "KB", result := pr.2,
          confidence := if h.score ≥ mkRat 65 100 then "high" else "medium",
          cache' := cacheSet cache query pr.2 "KB" now, store' := store,
          invoked := invoked }
      else agentFallback env cache store query now newId createdAt invoked
    else agentFallback env cache store query now newId createdAt invoked
  | .err => agentFallback env cache store query now newId createdAt invoked
  | .noMatch => agentFallback env cache store query now newId createdAt invoked

/-- Input-guardrail stage: a rejection is the terminal 400 "blocked" response. -/
def agentGuardStage (env : Env V) (cache : Cache) (store : List (Point V)) (query : String)
    (now : ℤ) (newId : Nat) (createdAt : String) : AgentOut V :=
  if env.guardOk query then agentKBStage env cache store query now newId createdAt
  else
    { route := "blocked", result := blockedRes, confidence := "",
      blockedError := true, cache' := cache, store' := store, invoked := [] }

/-- `POST /agent_route`: cache lookup first (a truthy cached result is returned with
the original tier label and `cached=True`), then guardrail, KB, web, AI, Human. -/
def agent_route (env : Env V) (cache : Cache) (store : List (Point V)) (query : String)
    (now : ℤ) (newId : Nat) (createdAt : String) : AgentOut V :=
  match cacheGet cache query now with
  | (some r, cache1) =>
    if r.truthy then
      { route :=
          (match getRouteInfo cache1 query now with
           | some rt => if rt = "" then "Cache" else rt
           | none => "Cache"),
        result := r, confidence := "high", cached := true,
        cache' := cache1, store' := store, invoked := [] }
    else agentGuardStage env cache1 store query now newId createdAt
  | (none, cache1) => agentGuardStage env cache1 store query now newId createdAt

/-! ## The alternate router (`master_router.py`) -/

/-- The `answer` field of an `/ask` response: the raw `kb_search_tool` dict, a
plain string, or the human-feedback prompt dict. -/
inductive AskAnswer
  | kbPayload (k : KBOut)
  | text (s : String)
  | human (r : Res)
deriving DecidableEq

structure AskOut (V : Type) where
  answer : AskAnswer
  source : String
  store' : List (Point V)
deriving DecidableEq

/-- `POST /ask` (`ask_math`): any truthy `kb_search_tool` result — the error dict
included — is returned directly as the KB answer; otherwise web (filtered only on
the `error` key), then AI, then the human prompt. -/
def ask_math (env : Env V) (store : List (Point V)) (query : String) (newId : Nat)
    (createdAt : String) : AskOut V :=
  match kb_search_tool env store query with
  | .hit h => { answer := .kbPayload (.hit h), source := "KB", store' := store }
  | .err => { answer := .kbPayload .err, source := "KB", store' := store }
  | .noMatch =>
    let w := env.webOut query
    if !w.hasError then
      let ans := pyOrOS w.res.ans (pyOrOS w.res.summary w.res.reprStr)
      let pres := persist_to_kb env store "web" query (some ans) none
        (some (w.res.sources.getD [])) w.res.metadata newId createdAt
      { answer := .text ans, source := "WEB", store' := pres.2 }
    else
      let a := env.aiOut query
      if !a.hasError then
        let ans := pyOrOS a.res.ans (pyOrOS a.res.steps a.res.reprStr)
        let pres := persist_to_kb env store "ai" query (some ans) a.res.steps none
          a.res.metadata newId createdAt
        { answer := .text ans, source := "AI", store' := pres.2 }
      else
        { answer := .human (env.humanRes query), source := "HUMAN", store' := store }

/-! ## The human-feedback KB writer (`human_feedback.py`) -/

/-- `HumanFeedbackSystem.store_in_kb`: upsert a brand-new point (fresh millisecond
id) whose payload carries only question/answer/steps/topic/subtopic/difficulty/
source — no `question_norm`, no `validated_by_user`, no dedup scan. -/
def store_in_kb (env : Env V) (store : List (Point V)) (query answer : String)
    (steps topic subtopic difficulty : Option String) (source : String)
    (newId : Nat) : List (Point V) :=
  upsertPoint store
    { id := newId, vector := env.embed query,
      payload :=
        { question := some query, answer := some answer, steps := steps,
          topic := topic, subtopic := subtopic, difficulty := difficulty,
          source := some source } }

/-- `HumanFeedbackSystem.submit_feedback` restricted to its knowledge-store effect:
qualifying positive feedback (`rating >= 4` or non-blank feedback text) stores the
improved (or original) solution via `store_in_kb`; otherwise the store is untouched. -/
def submit_feedback (env : Env V) (store : List (Point V))
    (query ai_solution human_feedback : String) (rating : ℤ) (newId : Nat) :
    List (Point V) :=
  let improved := env.improve query ai_solution human_feedback
  -- `rating >= 4 or (human_feedback and human_feedback.strip())`: the text branch
  -- is truthy exactly when the feedback contains a non-whitespace character.
  if rating ≥ 4 || human_feedback.data.any (fun ch => !ch.isWhitespace) then
    store_in_kb env store query (pyOrS improved ai_solution) none none none none
      "Human Feedback" newId
  else store

/-! ## Stage lemmas for `agent_route` -/

theorem agent_route_cacheMiss (env : Env V) (cache : Cache) (store : List (Point V))
    (query : String) (now : ℤ) (newId : Nat) (c : String)
    (h : (cacheGet cache query now).1 = none) :
    agent_route env cache store query now newId c =
      agentGuardStage env (cacheGet cache query now).2 store query now newId c := by
  unfold agent_route
  rcases hc : cacheGet cache query now with ⟨o, c1⟩
  rw [hc] at h
  simp only at h
  subst h
  rfl

theorem agentGuardStage_pass (env : Env V) (cache : Cache) (store : List (Point V))
    (query : String) (now : ℤ) (newId : Nat) (c : String)
    (h : env.guardOk query = true) :
    agentGuardStage env cache store query now newId c =
      agentKBStage env cache store query now newId c := by
  unfold agentGuardStage
  rw [h]
  rfl

theorem agentKBStage_noMatch (env : Env V) (cache : Cache) (store : List (Point V))
    (query : String) (now : ℤ) (newId : Nat) (c : String)
    (h : kb_search_tool env store query = .noMatch) :
    agentKBStage env cache store query now newId c =
      agentFallback env cache store query now newId c ["kb"] := by
  unfold agentKBStage
  rw [h]

theorem agentKBStage_err (env : Env V) (cache : Cache) (store : List (Point V))
    (query : String) (now : ℤ) (newId : Nat) (c : String)
    (h : kb_search_tool env store query = .err) :
    agentKBStage env cache store query now newId c =
      agentFallback env cache store query now newId c ["kb"] := by
  unfold agentKBStage
  rw [h]

theorem agentKBStage_hit_below (env : Env V) (cache : Cache) (store : List (Point V))
    (query : String) (now : ℤ) (newId : Nat) (c : String) (h : KBHit)
    (hh : kb_search_tool env store query = .hit h)
    (hscore : ¬ h.score ≥ (if h.validated_by_user then mkRat 45 100 else mkRat 65 100)) :
    agentKBStage env cache store query now newId c =
      agentFallback env cache store query now newId c ["kb"] := by
  unfold agentKBStage
  rw [hh]
  dsimp only
  rw [if_neg hscore]

theorem agentKBStage_hit_accept (env : Env V) (cache : Cache) (store : List (Point V))
    (query : String) (now : ℤ) (newId : Nat) (c : String) (h : KBHit)
    (hh : kb_search_tool env store query = .hit h)
    (hscore : h.score ≥ (if h.validated_by_user then mkRat 45 100 else mkRat 65 100))
    (hok : (env.processKB h).1 = true) :
    agentKBStage env cache store query now newId c =
      { route := "KB", result := (env.processKB h).2,
        confidence := if h.score ≥ mkRat 65 100 then "high" else "medium",
        cache' := cacheSet cache query (env.processKB h).2 "KB" now, store' := store,
        invoked := ["kb"] } := by
  unfold agentKBStage
  rw [hh]
  dsimp only
  rw [if_pos hscore, if_pos hok]

theorem agentAI_invoked (env : Env V) (cache : Cache) (store : List (Point V))
    (query : String) (now : ℤ) (newId : Nat) (c : String) (inv : List String) :
    (agentAI env cache store query now newId c inv).invoked = inv ++ ["ai"] := by
  unfold agentAI
  dsimp only
  split
  · split
    · rfl
    · rfl
  · rfl

theorem agentAI_route (env : Env V) (cache : Cache) (store : List (Point V))
    (query : String) (now : ℤ) (newId : Nat) (c : String) (inv : List String) :
    (agentAI env cache store query now newId c inv).route = "AI" ∨
      (agentAI env cache store query now newId c inv).route = "Human" := by
  unfold agentAI
  dsimp only
  split
  · split
    · exact Or.inl rfl
    · exact Or.inr rfl
  · exact Or.inr rfl

theorem agentWeb_invoked (env : Env V) (cache : Cache) (store : List (Point V))
    (query : String) (now : ℤ) (newId : Nat) (c : String) (inv : List String) :
    (agentWeb env cache store query now newId c inv).invoked = inv ++ ["web"] ∨
      (agentWeb env cache store query now newId c inv).invoked = inv ++ ["web", "ai"] := by
  unfold agentWeb
  dsimp only
  split
  · split
    · exact Or.inl rfl
    · refine Or.inr ?_
      rw [agentAI_invoked]
      simp
  · refine Or.inr ?_
    rw [agentAI_invoked]
    simp

theorem agentWeb_route (env : Env V) (cache : Cache) (store : List (Point V))
    (query : String) (now : ℤ) (newId : Nat) (c : String) (inv : List String) :
    (agentWeb env cache store query now newId c inv).route = "Web" ∨
      (agentWeb env cache store query now newId c inv).route = "AI" ∨
      (agentWeb env cache store query now newId c inv).route = "Human" := by
  unfold agentWeb
  dsimp only
  split
  · split
    · exact Or.inl rfl
    · exact Or.inr (agentAI_route ..)
  · exact Or.inr (agentAI_route ..)

theorem agentFallback_skip (env : Env V) (cache : Cache) (store : List (Point V))
    (query : String) (now : ℤ) (newId : Nat) (c : String) (inv : List String)
    (h : hasInventKeyword query = true) :
    agentFallback env cache store query now newId c inv =
      agentAI env cache store query now newId c inv := by
  unfold agentFallback
  rw [h]
  rfl

theorem agentFallback_web (env : Env V) (cache : Cache) (store : List (Point V))
    (query : String) (now : ℤ) (newId : Nat) (c : String) (inv : List String)
    (h : hasInventKeyword query = false) :
    agentFallback env cache store query now newId c inv =
      agentWeb env cache store query now newId c inv := by
  unfold agentFallback
  rw [h]
  rfl

/-! ## Concrete instances used by witnesses and counterexamples -/

/-- A concrete collaborator environment over `V := Nat`. -/
def envD : Env Nat :=
  { embed := fun _ => 0
    sim := fun _ _ => mkRat 1 2
    guardOk := fun _ => true
    processKB := fun h => (true, { ans := h.answer })
    processRes := fun r => (true, r)
    webOut := fun _ => ⟨true, false, { ans := some "web answer" }⟩
    aiOut := fun _ => ⟨true, false, { ans := some "ai answer" }⟩
    humanRes := fun _ => {}
    improve := fun _ _ _ => "improved" }

/-! ## Claim C2 — numeric exactness of the KB tier -/

/-- **C2.** For every query containing at least one decimal digit, `kb_search_tool`
returns an answer only from a stored record whose `question_norm` equals the
whitespace-collapsed lowercased query (the exact-match phase); no semantic match is
ever returned for such a query, however similar the embeddings. -/
theorem C2_numeric_exactness {V : Type} (env : Env V) (store : List (Point V))
    (query : String) (h : KBHit)
    (hdig : containsDigit query = true)
    (hres : kb_search_tool env store query = .hit h) :
    ∃ p ∈ store, p.payload.question_norm = some (normalizeQuestion query) ∧
      h.question = p.payload.question ∧ h.answer = p.payload.answer ∧
      h.source = "Knowledge Base (Exact)" := by
  unfold kb_search_tool at hres
  by_cases hf : env.kbSearchFails = true
  · rw [if_pos hf] at hres
    exact absurd hres (by simp)
  · rw [if_neg hf] at hres
    dsimp only at hres
    rcases hfind : (searchTopK env.sim (env.embed query) store 10).find?
        (fun sp => decide (sp.point.payload.question_norm = some (normalizeQuestion query)))
      with _ | sp
    · rw [hfind] at hres
      simp [hdig] at hres
    · rw [hfind] at hres
      have hpred := List.find?_some hfind
      have hmem := List.mem_of_find?_eq_some hfind
      obtain ⟨hstore, -⟩ := mem_searchTopK hmem
      simp only [decide_eq_true_eq] at hpred
      injection hres with hh
      refine ⟨sp.point, hstore, hpred, ?_, ?_, ?_⟩ <;> rw [← hh] <;> rfl

/-- The KB record used by the C2 witness. -/
def ptC2 : Point Nat :=
  { id := 1, vector := 0,
    payload := { question := some "2+2", question_norm := some "2+2", answer := some "4" } }

/-- Witness for C2: the digit query `"2+2"` is answered by `kb_search_tool` from the
record whose `question_norm` is exactly `"2+2"`. -/
theorem C2_numeric_exactness_witness :
    containsDigit "2+2" = true ∧
    kb_search_tool envD [ptC2] "2+2" = .hit (exactHit ⟨ptC2, mkRat 1 2⟩) ∧
    (∃ p ∈ [ptC2], p.payload.question_norm = some (normalizeQuestion "2+2") ∧
      (exactHit (⟨ptC2, mkRat 1 2⟩ : ScoredPoint Nat)).question = p.payload.question ∧
      (exactHit (⟨ptC2, mkRat 1 2⟩ : ScoredPoint Nat)).answer = p.payload.answer ∧
      (exactHit (⟨ptC2, mkRat 1 2⟩ : ScoredPoint Nat)).source = "Knowledge Base (Exact)") :=
  ⟨by decide, by decide,
    C2_numeric_exactness envD [ptC2] "2+2" (exactHit ⟨ptC2, mkRat 1 2⟩) (by decide) (by decide)⟩

/-! ## Claim C8 — fallback monotonicity and the invention-keyword shortcut -/

/-- **C8.** For every query on which the KB tier yields no accepted match (no hit, an
error dict, or a hit below its threshold), the web tier is attempted if and only if
the query contains none of the fixed invention/fictional keywords; when such a
keyword is present the web tier is never invoked and AI generation is attempted
directly. -/
theorem C8_fallback_monotonic {V : Type} (env : Env V) (cache : Cache)
    (store : List (Point V)) (query : String) (now : ℤ) (newId : Nat) (c : String)
    (hmiss : (cacheGet cache query now).1 = none)
    (hguard : env.guardOk query = true)
    (hnokb : ∀ h, kb_search_tool env store query = .hit h →
      ¬ h.score ≥ (if h.validated_by_user then mkRat 45 100 else mkRat 65 100)) :
    ("web" ∈ (agent_route env cache store query now newId c).invoked ↔
       hasInventKeyword query = false) ∧
    (hasInventKeyword query = true →
       "ai" ∈ (agent_route env cache store query now newId c).invoked) := by
  rw [agent_route_cacheMiss env cache store query now newId c hmiss,
    agentGuardStage_pass _ _ _ _ _ _ _ hguard]
  have hfb : agentKBStage env (cacheGet cache query now).2 store query now newId c =
      agentFallback env (cacheGet cache query now).2 store query now newId c ["kb"] := by
    cases hkb : kb_search_tool env store query with
    | noMatch => exact agentKBStage_noMatch _ _ _ _ _ _ _ hkb
    | err => exact agentKBStage_err _ _ _ _ _ _ _ hkb
    | hit h => exact agentKBStage_hit_below _ _ _ _ _ _ _ h hkb (hnokb h hkb)
  rw [hfb]
  cases hkw : hasInventKeyword query with
  | true =>
    rw [agentFallback_skip _ _ _ _ _ _ _ _ hkw, agentAI_invoked]
    exact ⟨⟨fun hwmem => absurd hwmem (by decide), fun hfalse => absurd hfalse (by decide)⟩,
      fun _ => by decide⟩
  | false =>
    rw [agentFallback_web _ _ _ _ _ _ _ _ hkw]
    rcases agentWeb_invoked env (cacheGet cache query now).2 store query now newId c
        ["kb"] with hi | hi <;> rw [hi] <;>
      exact ⟨⟨fun _ => rfl, fun _ => by decide⟩, fun habs => absurd habs (by decide)⟩

/-- Witness for C8: with an empty cache and empty KB, the query
`"imagine a solve"` (invention keyword present) skips the web tier and invokes AI. -/
theorem C8_fallback_monotonic_witness :
    (cacheGet {} "imagine a solve" 0).1 = none ∧
    envD.guardOk "imagine a solve" = true ∧
    (∀ h, kb_search_tool envD [] "imagine a solve" = .hit h →
      ¬ h.score ≥ (if h.validated_by_user then mkRat 45 100 else mkRat 65 100)) ∧
    (("web" ∈ (agent_route envD {} [] "imagine a solve" 0 1 "t").invoked ↔
       hasInventKeyword "imagine a solve" = false) ∧
     (hasInventKeyword "imagine a solve" = true →
       "ai" ∈ (agent_route envD {} [] "imagine a solve" 0 1 "t").invoked)) :=
  ⟨rfl, rfl,
    fun h hh => by
      have he : kb_search_tool envD [] "imagine a solve" = KBOut.noMatch := by decide
      rw [he] at hh
      simp at hh,
    C8_fallback_monotonic envD {} [] "imagine a solve" 0 1 "t" rfl rfl
      (fun h hh => by
        have he : kb_search_tool envD [] "imagine a solve" = KBOut.noMatch := by decide
        rw [he] at hh
        simp at hh)⟩

/-! ## Lemmas about `upsertPoint` and `persist_to_kb` -/

theorem upsertPoint_replace {V : Type} (store : List (Point V)) (pt : Point V)
    (h : ∃ p ∈ store, p.id = pt.id) :
    upsertPoint store pt = store.map (fun p => if p.id = pt.id then pt else p) := by
  unfold upsertPoint
  rw [if_pos]
  rcases h with ⟨p, hp, hid⟩
  exact List.any_eq_true.mpr ⟨p, hp, by simp [hid]⟩

theorem upsertPoint_append {V : Type} (store : List (Point V)) (pt : Point V)
    (h : ∀ p ∈ store, p.id ≠ pt.id) :
    upsertPoint store pt = store ++ [pt] := by
  unfold upsertPoint
  rw [if_neg]
  intro hcon
  rcases List.any_eq_true.mp hcon with ⟨p, hp, hbeq⟩
  exact h p hp (by simpa using hbeq)

/-- When the dedup scan produced a nonzero existing id, `persist_to_kb` re-targets
the upsert at that id (an update, not an insert). -/
theorem persist_to_kb_update {V : Type} (env : Env V) (store : List (Point V))
    (origin query : String) (answer steps : Option String)
    (sources : Option (List String)) (metadata : Option MetaInfo)
    (newId : Nat) (createdAt : String) (i : Nat)
    (hded : dedupTarget env.sim (env.embed query) store (normalizeQuestion query) = some i)
    (hi : i ≠ 0)
    (hs : env.persistSearchFails = false)
    (hu : env.upsertFails = false) :
    persist_to_kb env store origin query answer steps sources metadata newId createdAt =
      (true, upsertPoint store
        { id := i, vector := env.embed query,
          payload := freshPayload origin query answer steps sources metadata createdAt }) := by
  unfold persist_to_kb
  dsimp only
  rw [hs, hu]
  simp only [Bool.false_eq_true, if_false, hded, if_pos hi]

/-- When the dedup scan found nothing, `persist_to_kb` inserts under the fresh id. -/
theorem persist_to_kb_insert {V : Type} (env : Env V) (store : List (Point V))
    (origin query : String) (answer steps : Option String)
    (sources : Option (List String)) (metadata : Option MetaInfo)
    (newId : Nat) (createdAt : String)
    (hded : dedupTarget env.sim (env.embed query) store (normalizeQuestion query) = none)
    (hs : env.persistSearchFails = false)
    (hu : env.upsertFails = false) :
    persist_to_kb env store origin query answer steps sources metadata newId createdAt =
      (true, upsertPoint store
        { id := newId, vector := env.embed query,
          payload := freshPayload origin query answer steps sources metadata createdAt }) := by
  unfold persist_to_kb
  dsimp only
  rw [hs, hu]
  simp only [Bool.false_eq_true, if_false, hded]

/-! ## Claim C10 — a dedup update replaces the whole payload -/

/-- **C10.** Whenever `persist_to_kb` updates an existing KB record (the dedup scan
returned its nonzero id), the upsert replaces that record's entire payload with a
freshly built one whose `validated_by_user` is `false` and whose `source` and
`route_origin` are the current tier; every other record is untouched and no record
is added — so re-answering an already-validated or differently-sourced question
resets its validated status and overwrites its origin. -/
theorem C10_update_resets_validation {V : Type} (env : Env V) (store : List (Point V))
    (origin query : String) (answer steps : Option String)
    (sources : Option (List String)) (metadata : Option MetaInfo)
    (newId : Nat) (createdAt : String) (i : Nat)
    (hded : dedupTarget env.sim (env.embed query) store (normalizeQuestion query) = some i)
    (hi : i ≠ 0)
    (hs : env.persistSearchFails = false)
    (hu : env.upsertFails = false)
    (hmem : ∃ p ∈ store, p.id = i) :
    (persist_to_kb env store origin query answer steps sources metadata newId createdAt).1
      = true ∧
    (persist_to_kb env store origin query answer steps sources metadata newId createdAt).2
      = store.map (fun p => if p.id = i then
          { id := i, vector := env.embed query,
            payload := freshPayload origin query answer steps sources metadata createdAt }
          else p) ∧
    (freshPayload origin query answer steps sources metadata createdAt).validated_by_user
      = false ∧
    (freshPayload origin query answer steps sources metadata createdAt).source
      = some origin ∧
    (freshPayload origin query answer steps sources metadata createdAt).route_origin
      = some origin ∧
    (persist_to_kb env store origin query answer steps sources metadata newId createdAt).2.length
      = store.length := by
  rw [persist_to_kb_update env store origin query answer steps sources metadata newId
    createdAt i hded hi hs hu]
  rw [upsertPoint_replace store _ hmem]
  exact ⟨rfl, rfl, rfl, rfl, rfl, by simp⟩

/-- The stored record used by the C10 witness: a validated, seed-origin record. -/
def ptC10 : Point Nat :=
  { id := 3, vector := 0,
    payload := { question := some "solve x", question_norm := some "solve x",
                 answer := some "old answer", source := some "seed-dataset",
                 route_origin := some "seed", validated_by_user := true } }

/-- The environment of the C10 witness: every vector is identical (similarity 1). -/
def envC10 : Env Nat :=
  { envD with sim := fun _ _ => 1 }

/-- Witness for C10: re-answering `"solve x"` from the web overwrites the validated
seed record in place with `validated_by_user = false` and origin `web`. -/
theorem C10_update_resets_validation_witness :
    dedupTarget envC10.sim (envC10.embed "solve x") [ptC10]
      (normalizeQuestion "solve x") = some 3 ∧
    (persist_to_kb envC10 [ptC10] "web" "solve x" (some "new answer") none none none
      99 "t").2 =
      [{ id := 3, vector := 0,
         payload := freshPayload "web" "solve x" (some "new answer") none none none "t" }] ∧
    (freshPayload "web" "solve x" (some "new answer") none none none "t").validated_by_user
      = false ∧
    (freshPayload "web" "solve x" (some "new answer") none none none "t").route_origin
      = some "web" :=
  ⟨by decide,
    by
      have h := C10_update_resets_validation envC10 [ptC10] "web" "solve x"
        (some "new answer") none none none 99 "t" 3 (by decide) (by decide) rfl rfl
        ⟨ptC10, by decide⟩
      rw [h.2.1]
      decide,
    rfl, rfl⟩

/-! ## Claim C6 — knowledge-store failure surfacing -/

/-- Counterexample to C6: when the vector-store search raises, `kb_search_tool`
returns the error dict (not `None`), and `master_router.ask_math`'s truthiness
check (`if kb_result:`) serves that backend error payload to the caller as a KB
answer. -/
theorem C6_counterexample :
    kb_search_tool { envD with kbSearchFails := true } ([] : List (Point Nat))
      "solve x" = .err ∧
    (ask_math { envD with kbSearchFails := true } [] "solve x" 1 "t").source = "KB" ∧
    (ask_math { envD with kbSearchFails := true } [] "solve x" 1 "t").answer =
      .kbPayload .err :=
  ⟨rfl, rfl, rfl⟩

/-- **C6 (amended).** When the knowledge-store backend fails, `kb_search_tool` never
raises but surfaces the failure as an in-band error dict rather than a no-match
`None`; `agent_route` never serves it as a KB answer (the error dict's score reads
as 0, below both thresholds, so the engine degrades to web/AI/human), but
`master_router.ask_math` does return the error payload as a KB answer. -/
theorem C6_error_dict_degrades {V : Type} (env : Env V) (cache : Cache)
    (store : List (Point V)) (query : String) (now : ℤ) (newId : Nat) (c : String)
    (hfail : env.kbSearchFails = true)
    (hmiss : (cacheGet cache query now).1 = none) :
    kb_search_tool env store query = .err ∧
    (ask_math env store query newId c).answer = .kbPayload .err ∧
    ((agent_route env cache store query now newId c).route = "blocked" ∨
     (agent_route env cache store query now newId c).route = "Web" ∨
     (agent_route env cache store query now newId c).route = "AI" ∨
     (agent_route env cache store query now newId c).route = "Human") := by
  have hkb : kb_search_tool env store query = .err := by
    unfold kb_search_tool
    rw [hfail]
    rfl
  refine ⟨hkb, ?_, ?_⟩
  · unfold ask_math
    rw [hkb]
  · rw [agent_route_cacheMiss _ _ _ _ _ _ _ hmiss]
    unfold agentGuardStage
    by_cases hg : env.guardOk query = true
    · rw [if_pos hg, agentKBStage_err _ _ _ _ _ _ _ hkb]
      unfold agentFallback
      cases hkw : hasInventKeyword query with
      | true =>
        rw [if_pos rfl]
        rcases agentAI_route env (cacheGet cache query now).2 store query now newId c
            ["kb"] with h | h
        · exact Or.inr (Or.inr (Or.inl h))
        · exact Or.inr (Or.inr (Or.inr h))
      | false =>
        rw [if_neg (by simp)]
        rcases agentWeb_route env (cacheGet cache query now).2 store query now newId c
            ["kb"] with h | h | h
        · exact Or.inr (Or.inl h)
        · exact Or.inr (Or.inr (Or.inl h))
        · exact Or.inr (Or.inr (Or.inr h))
    · rw [if_neg hg]
      exact Or.inl rfl

/-- Witness for C6 (amended): with the failing backend, an empty cache and a plain
query, the engine degrades to the web tier. -/
theorem C6_error_dict_degrades_witness :
    ({ envD with kbSearchFails := true } : Env Nat).kbSearchFails = true ∧
    (cacheGet {} "solve x" 0).1 = none ∧
    (kb_search_tool { envD with kbSearchFails := true } ([] : List (Point Nat))
        "solve x" = .err ∧
     (ask_math { envD with kbSearchFails := true } ([] : List (Point Nat)) "solve x"
        1 "t").answer = .kbPayload .err ∧
     ((agent_route { envD with kbSearchFails := true } {} ([] : List (Point Nat))
        "solve x" 0 1 "t").route = "blocked" ∨
      (agent_route { envD with kbSearchFails := true } {} ([] : List (Point Nat))
        "solve x" 0 1 "t").route = "Web" ∨
      (agent_route { envD with kbSearchFails := true } {} ([] : List (Point Nat))
        "solve x" 0 1 "t").route = "AI" ∨
      (agent_route { envD with kbSearchFails := true } {} ([] : List (Point Nat))
        "solve x" 0 1 "t").route = "Human")) :=
  ⟨rfl, rfl,
    C6_error_dict_degrades { envD with kbSearchFails := true } {} [] "solve x" 0 1 "t"
      rfl rfl⟩

/-! ## Claim C9 — what positive feedback actually does to the KB -/

/-- The stored record used by the C9 counterexample: a web-origin, not yet
validated record whose normalized question matches the feedback query. -/
def ptC9 : Point Nat :=
  { id := 2, vector := 0,
    payload := { question := some "solve y", question_norm := some "solve y",
                 answer := some "old", source := some "web",
                 route_origin := some "web", validated_by_user := false } }

/-- Counterexample to C9: qualifying positive feedback (rating 5) on a query
matching the existing web-origin record does **not** set `validated_by_user` in
place; it leaves the record untouched and appends a brand-new record with source
`"Human Feedback"`. -/
theorem C9_counterexample :
    (submit_feedback envD [ptC9] "solve y" "sol" "great" 5 10).length = 2 ∧
    (∀ p ∈ submit_feedback envD [ptC9] "solve y" "sol" "great" 5 10,
      p.id = 2 → p.payload.validated_by_user = false) ∧
    (∃ p ∈ submit_feedback envD [ptC9] "solve y" "sol" "great" 5 10,
      p.id = 10 ∧ p.payload.source = some "Human Feedback" ∧
      p.payload.validated_by_user = false) := by
  decide

/-- **C9 (amended).** On qualifying positive feedback (`rating >= 4` or non-blank
corrective text), `HumanFeedbackSystem.submit_feedback` appends a brand-new KB
record (fresh id, source `"Human Feedback"`, no `question_norm`, no
`validated_by_user` flag) holding the improved (or original) solution; every
pre-existing record — including a matching Web/AI-origin one — is left entirely
unchanged, and no record's `validated_by_user` is set. -/
theorem C9_feedback_appends_record {V : Type} (env : Env V) (store : List (Point V))
    (query ai_solution human_feedback : String) (rating : ℤ) (newId : Nat)
    (hqual : rating ≥ 4 ∨ human_feedback.data.any (fun ch => !ch.isWhitespace) = true)
    (hfresh : ∀ p ∈ store, p.id ≠ newId) :
    submit_feedback env store query ai_solution human_feedback rating newId =
      store ++ [Point.mk newId (env.embed query)
        { question := some query,
          answer := some (pyOrS (env.improve query ai_solution human_feedback)
            ai_solution),
          source := some "Human Feedback" }] ∧
    (∀ p ∈ store,
      p ∈ submit_feedback env store query ai_solution human_feedback rating newId) ∧
    (Payload.mk (some query)
        none
        (some (pyOrS (env.improve query ai_solution human_feedback) ai_solution))
        none none none none (some "Human Feedback") none false none [] none
      ).validated_by_user = false := by
  have hcond : (decide (rating ≥ 4) ||
      human_feedback.data.any (fun ch => !ch.isWhitespace)) = true := by
    rcases hqual with h | h
    · simp [h]
    · simp [h]
  unfold submit_feedback
  dsimp only
  rw [hcond]
  unfold store_in_kb
  rw [upsertPoint_append _ _ (fun p hp => hfresh p hp)]
  refine ⟨rfl, fun p hp => List.mem_append_left _ hp, rfl⟩

/-- Witness for C9 (amended): feedback with rating 5 on an empty store appends
exactly the human-feedback record. -/
theorem C9_feedback_appends_record_witness :
    ((5 : ℤ) ≥ 4 ∨ "great".data.any (fun ch => !ch.isWhitespace) = true) ∧
    (submit_feedback envD [] "solve y" "sol" "great" 5 10 =
      [Point.mk 10 0
         { question := some "solve y",
           answer := some (pyOrS (envD.improve "solve y" "sol" "great") "sol"),
           source := some "Human Feedback" }] ∧
     (∀ p ∈ ([] : List (Point Nat)),
        p ∈ submit_feedback envD [] "solve y" "sol" "great" 5 10) ∧
     (Payload.mk (some "solve y") none
        (some (pyOrS (envD.improve "solve y" "sol" "great") "sol"))
        none none none none (some "Human Feedback") none false none []
        none).validated_by_user = false) :=
  ⟨Or.inl (by decide),
    by
      have h := C9_feedback_appends_record envD [] "solve y" "sol" "great" 5 10
        (Or.inl (by decide)) (fun p hp => absurd hp (List.not_mem_nil p))
      simpa using h⟩

/-! ## Characterizing `kb_search_tool` hits -/

/-- Every hit produced by the top-3 semantic loop is a trusted candidate at
score ≥ 0.45 (returned as a `validatedHit`) or an untrusted one at score ≥ 0.65
(returned as a `regularHit`). -/
theorem semanticScan_some {V : Type} {l : List (ScoredPoint V)} {h : KBHit}
    (hs : semanticScan l = some h) :
    ∃ sp ∈ l,
      (trustedPayload sp.point.payload = true ∧ sp.score ≥ mkRat 45 100 ∧
        h = validatedHit sp) ∨
      (trustedPayload sp.point.payload = false ∧ sp.score ≥ mkRat 65 100 ∧
        h = regularHit sp) := by
  induction l with
  | nil => cases hs
  | cons sp rest ih =>
    unfold semanticScan at hs
    by_cases ht : trustedPayload sp.point.payload = true
    · rw [if_pos ht] at hs
      by_cases hsc : sp.score ≥ mkRat 45 100
      · rw [if_pos hsc] at hs
        injection hs with hh
        exact ⟨sp, List.mem_cons_self sp rest, Or.inl ⟨ht, hsc, hh.symm⟩⟩
      · rw [if_neg hsc] at hs
        rcases ih hs with ⟨sp', hm, hd⟩
        exact ⟨sp', List.mem_cons_of_mem sp hm, hd⟩
    · rw [if_neg ht] at hs
      by_cases hsc : sp.score ≥ mkRat 65 100
      · rw [if_pos hsc] at hs
        injection hs with hh
        exact ⟨sp, List.mem_cons_self sp rest,
          Or.inr ⟨by simpa using ht, hsc, hh.symm⟩⟩
      · rw [if_neg hsc] at hs
        rcases ih hs with ⟨sp', hm, hd⟩
        exact ⟨sp', List.mem_cons_of_mem sp hm, hd⟩

/-- Every hit of `kb_search_tool` is either an exact-phase hit (from a stored
record whose `question_norm` is the normalized query) or a top-3 semantic hit
(only reachable for digit-free queries). -/
theorem kb_search_tool_hit_cases {V : Type} {env : Env V} {store : List (Point V)}
    {query : String} {h : KBHit}
    (hres : kb_search_tool env store query = .hit h) :
    (∃ sp : ScoredPoint V, sp.point ∈ store ∧ h = exactHit sp ∧
       sp.point.payload.question_norm = some (normalizeQuestion query)) ∨
    (semanticScan (searchTopK env.sim (env.embed query) store 3) = some h ∧
       containsDigit query = false) := by
  unfold kb_search_tool at hres
  by_cases hf : env.kbSearchFails = true
  · rw [if_pos hf] at hres
    exact absurd hres (by simp)
  · rw [if_neg hf] at hres
    dsimp only at hres
    rcases hfind : (searchTopK env.sim (env.embed query) store 10).find?
        (fun sp => decide (sp.point.payload.question_norm = some (normalizeQuestion query)))
      with _ | sp
    · rw [hfind] at hres
      by_cases hd : containsDigit query = true
      · rw [if_pos hd] at hres
        exact absurd hres (by simp)
      · rw [if_neg hd] at hres
        rcases hscan : semanticScan (searchTopK env.sim (env.embed query) store 3)
          with _ | h'
        · rw [hscan] at hres
          exact absurd hres (by simp)
        · rw [hscan] at hres
          injection hres with hh
          subst hh
          exact Or.inr ⟨rfl, by simpa using hd⟩
    · rw [hfind] at hres
      have hpred := List.find?_some hfind
      have hmem := List.mem_of_find?_eq_some hfind
      obtain ⟨hstore, -⟩ := mem_searchTopK hmem
      simp only [decide_eq_true_eq] at hpred
      injection hres with hh
      exact Or.inl ⟨sp, hstore, hh.symm, hpred⟩

theorem agentFallback_route {V : Type} (env : Env V) (cache : Cache)
    (store : List (Point V)) (query : String) (now : ℤ) (newId : Nat) (c : String)
    (inv : List String) :
    (agentFallback env cache store query now newId c inv).route = "Web" ∨
    (agentFallback env cache store query now newId c inv).route = "AI" ∨
    (agentFallback env cache store query now newId c inv).route = "Human" := by
  unfold agentFallback
  split
  · rcases agentAI_route env cache store query now newId c inv with h | h
    · exact Or.inr (Or.inl h)
    · exact Or.inr (Or.inr h)
  · exact agentWeb_route env cache store query now newId c inv

theorem agentFallback_route_ne_KB {V : Type} (env : Env V) (cache : Cache)
    (store : List (Point V)) (query : String) (now : ℤ) (newId : Nat) (c : String)
    (inv : List String) :
    (agentFallback env cache store query now newId c inv).route ≠ "KB" := by
  rcases agentFallback_route env cache store query now newId c inv with h | h | h <;>
    rw [h] <;> decide

/-! ## Claim C1 — bimodal acceptance thresholds -/

/-- The record of the C1 counterexample: web origin, not flagged validated, and its
`question_norm` matches the query exactly (so it is returned by the exact phase). -/
def ptC1 : Point Nat :=
  { id := 4, vector := 0,
    payload := { question := some "solve q", question_norm := some "solve q",
                 answer := some "a", source := some "web",
                 route_origin := some "web", validated_by_user := false } }

/-- Counterexample to C1: a KB candidate of web origin with score 0.50 ≥ 0.45 is
returned by `kb_search_tool` (exact phase) yet rejected by `agent_route` (which
reads only the hit's `validated_by_user` — `false` here — and so applies the 0.65
bar); the engine falls through to the web tier instead of accepting. -/
theorem C1_counterexample :
    kb_search_tool envD [ptC1] "solve q" = .hit (exactHit ⟨ptC1, mkRat 1 2⟩) ∧
    ptC1.payload.route_origin = some "web" ∧
    (exactHit (⟨ptC1, mkRat 1 2⟩ : ScoredPoint Nat)).score ≥ mkRat 45 100 ∧
    (exactHit (⟨ptC1, mkRat 1 2⟩ : ScoredPoint Nat)).validated_by_user = false ∧
    (agent_route envD {} [ptC1] "solve q" 0 1 "t").route = "Web" := by
  decide

/-- **C1 (amended).** Acceptance of a `kb_search_tool` hit by `agent_route` is
bimodal in the hit's `validated_by_user` field: semantic hits from records flagged
validated or of web/ai origin are returned only at score ≥ 0.45, carry
`validated_by_user = true`, and are accepted; other semantic hits are returned only
at score ≥ 0.65 and accepted; an exact-phase hit however carries the stored
record's own `validated_by_user` flag — web/ai origin alone does not lower its
bar — and is accepted iff its score clears 0.45 (flag set) or 0.65 (flag unset),
otherwise the engine falls through (to web search when no invention keyword). -/
theorem C1_threshold_bimodal {V : Type} (env : Env V) (cache : Cache)
    (store : List (Point V)) (query : String) (now : ℤ) (newId : Nat) (c : String)
    (hmiss : (cacheGet cache query now).1 = none)
    (hguard : env.guardOk query = true)
    (h : KBHit) (hres : kb_search_tool env store query = .hit h) :
    (h.source = "Knowledge Base (User Validated)" →
       h.validated_by_user = true ∧ h.score ≥ mkRat 45 100 ∧
       ((env.processKB h).1 = true →
         (agent_route env cache store query now newId c).route = "KB")) ∧
    (h.source = "Knowledge Base" →
       h.validated_by_user = false ∧ h.score ≥ mkRat 65 100 ∧
       ((env.processKB h).1 = true →
         (agent_route env cache store query now newId c).route = "KB")) ∧
    (h.source = "Knowledge Base (Exact)" →
       (∃ sp : ScoredPoint V, sp.point ∈ store ∧ h = exactHit sp ∧
          h.validated_by_user = sp.point.payload.validated_by_user) ∧
       (h.score ≥ (if h.validated_by_user then mkRat 45 100 else mkRat 65 100) →
         (env.processKB h).1 = true →
         (agent_route env cache store query now newId c).route = "KB") ∧
       (¬ h.score ≥ (if h.validated_by_user then mkRat 45 100 else mkRat 65 100) →
         (agent_route env cache store query now newId c).route ≠ "KB" ∧
         (hasInventKeyword query = false →
           "web" ∈ (agent_route env cache store query now newId c).invoked))) := by
  have haccept : ∀ (_ : h.score ≥ (if h.validated_by_user then mkRat 45 100
      else mkRat 65 100)) (_ : (env.processKB h).1 = true),
      (agent_route env cache store query now newId c).route = "KB" := by
    intro hsc hok
    rw [agent_route_cacheMiss _ _ _ _ _ _ _ hmiss,
      agentGuardStage_pass _ _ _ _ _ _ _ hguard,
      agentKBStage_hit_accept _ _ _ _ _ _ _ h hres hsc hok]
  have hreject : ¬ h.score ≥ (if h.validated_by_user then mkRat 45 100
      else mkRat 65 100) →
      (agent_route env cache store query now newId c).route ≠ "KB" ∧
      (hasInventKeyword query = false →
        "web" ∈ (agent_route env cache store query now newId c).invoked) := by
    intro hsc
    rw [agent_route_cacheMiss _ _ _ _ _ _ _ hmiss,
      agentGuardStage_pass _ _ _ _ _ _ _ hguard,
      agentKBStage_hit_below _ _ _ _ _ _ _ h hres hsc]
    refine ⟨agentFallback_route_ne_KB _ _ _ _ _ _ _ _, fun hkw => ?_⟩
    rw [agentFallback_web _ _ _ _ _ _ _ _ hkw]
    rcases agentWeb_invoked env (cacheGet cache query now).2 store query now newId c
        ["kb"] with hi | hi <;> rw [hi] <;> decide
  rcases kb_search_tool_hit_cases hres with ⟨sp, hmem, hh, hnorm⟩ | ⟨hscan, hdig⟩
  · subst hh
    refine ⟨fun hsrc => absurd hsrc (by simp [exactHit]),
      fun hsrc => absurd hsrc (by simp [exactHit]),
      fun _ => ⟨⟨sp, hmem, rfl, rfl⟩, haccept, hreject⟩⟩
  · rcases semanticScan_some hscan with ⟨sp, hmem, ⟨ht, hsc, hh⟩ | ⟨ht, hsc, hh⟩⟩
    · subst hh
      refine ⟨fun _ => ⟨rfl, hsc, ?_⟩, fun hsrc => absurd hsrc (by simp [validatedHit]),
        fun hsrc => absurd hsrc (by simp [validatedHit])⟩
      intro hok
      refine haccept ?_ hok
      simpa [validatedHit] using hsc
    · subst hh
      refine ⟨fun hsrc => absurd hsrc (by simp [regularHit]), fun _ => ⟨rfl, hsc, ?_⟩,
        fun hsrc => absurd hsrc (by simp [regularHit])⟩
      intro hok
      refine haccept ?_ hok
      simpa [regularHit] using hsc

/-- The record of the C1 witness: flagged validated, exact match, score 0.50. -/
def ptC1v : Point Nat :=
  { id := 5, vector := 0,
    payload := { question := some "solve q", question_norm := some "solve q",
                 answer := some "a", source := some "web",
                 route_origin := some "web", validated_by_user := true } }

/-- Witness for C1 (amended): a validated exact hit with score 0.50 is accepted and
routed KB. -/
theorem C1_threshold_bimodal_witness :
    (cacheGet {} "solve q" 0).1 = none ∧
    envD.guardOk "solve q" = true ∧
    kb_search_tool envD [ptC1v] "solve q" = .hit (exactHit ⟨ptC1v, mkRat 1 2⟩) ∧
    (agent_route envD {} [ptC1v] "solve q" 0 1 "t").route = "KB" :=
  ⟨rfl, rfl, by decide,
    ((C1_threshold_bimodal envD {} [ptC1v] "solve q" 0 1 "t" rfl rfl
        (exactHit ⟨ptC1v, mkRat 1 2⟩) (by decide)).2.2 (by decide)).2.1
      (by decide) (by decide)⟩

/-! ## Claim C3 — exact-match-first, and the threshold `agent_route` re-applies -/

/-- The record of the C3 counterexample: an exact `question_norm` match with low
similarity score 0.30 and no validated flag. -/
def ptC3 : Point Nat :=
  { id := 6, vector := 0,
    payload := { question := some "solve r", question_norm := some "solve r",
                 answer := some "a", source := some "seed-dataset",
                 validated_by_user := false } }

/-- An environment whose similarity is the constant 0.30. -/
def envC3 : Env Nat :=
  { envD with sim := fun _ _ => mkRat 3 10 }

/-- Counterexample to C3: the adapter returns the exact match without any
threshold, but the pipeline does **not** return it with route KB — `agent_route`
re-applies the 0.65 bar to the exact hit's score 0.30 and falls through to Web. -/
theorem C3_counterexample :
    kb_search_tool envC3 [ptC3] "solve r" = .hit (exactHit ⟨ptC3, mkRat 3 10⟩) ∧
    (exactHit (⟨ptC3, mkRat 3 10⟩ : ScoredPoint Nat)).source
      = "Knowledge Base (Exact)" ∧
    (agent_route envC3 {} [ptC3] "solve r" 0 1 "t").route = "Web" := by
  decide

/-- **C3 (amended).** The exact normalized-question check over the top-10 results is
performed before any threshold-based semantic check, and when it matches,
`kb_search_tool` returns that record immediately (source "Knowledge Base (Exact)"),
with no similarity threshold and regardless of digit content — but `agent_route`
then re-applies the bimodal 0.45/0.65 threshold to the exact hit's score, so the
pipeline returns route KB only when the score clears the threshold selected by the
record's `validated_by_user` flag, and otherwise falls through. -/
theorem C3_exact_first_then_threshold {V : Type} (env : Env V) (cache : Cache)
    (store : List (Point V)) (query : String) (now : ℤ) (newId : Nat) (c : String)
    (hmiss : (cacheGet cache query now).1 = none)
    (hguard : env.guardOk query = true)
    (sp : ScoredPoint V)
    (hnofail : env.kbSearchFails = false)
    (hfind : (searchTopK env.sim (env.embed query) store 10).find?
        (fun sp => decide (sp.point.payload.question_norm
          = some (normalizeQuestion query))) = some sp) :
    kb_search_tool env store query = .hit (exactHit sp) ∧
    (exactHit sp).source = "Knowledge Base (Exact)" ∧
    (exactHit sp).score = sp.score ∧
    ((exactHit sp).score ≥ (if sp.point.payload.validated_by_user then mkRat 45 100
        else mkRat 65 100) →
      (env.processKB (exactHit sp)).1 = true →
      (agent_route env cache store query now newId c).route = "KB") ∧
    (¬ (exactHit sp).score ≥ (if sp.point.payload.validated_by_user then mkRat 45 100
        else mkRat 65 100) →
      (agent_route env cache store query now newId c).route ≠ "KB") := by
  have hkb : kb_search_tool env store query = .hit (exactHit sp) := by
    unfold kb_search_tool
    rw [if_neg (by simp [hnofail])]
    dsimp only
    rw [hfind]
  have hval : (exactHit sp).validated_by_user = sp.point.payload.validated_by_user := rfl
  refine ⟨hkb, rfl, rfl, ?_, ?_⟩
  · intro hsc hok
    rw [agent_route_cacheMiss _ _ _ _ _ _ _ hmiss,
      agentGuardStage_pass _ _ _ _ _ _ _ hguard,
      agentKBStage_hit_accept _ _ _ _ _ _ _ _ hkb (by rw [hval]; exact hsc) hok]
  · intro hsc
    rw [agent_route_cacheMiss _ _ _ _ _ _ _ hmiss,
      agentGuardStage_pass _ _ _ _ _ _ _ hguard,
      agentKBStage_hit_below _ _ _ _ _ _ _ _ hkb (by rw [hval]; exact hsc)]
    exact agentFallback_route_ne_KB _ _ _ _ _ _ _ _

/-- The record of the C3 witness: an exact match with a digit-bearing query and a
validated flag, accepted at score 0.50. -/
def ptC3w : Point Nat :=
  { id := 7, vector := 0,
    payload := { question := some "solve 3x = 9", question_norm := some "solve 3x = 9",
                 answer := some "x = 3", validated_by_user := true } }

/-- Witness for C3 (amended): the exact match on a digit query is returned with no
adapter-side threshold and accepted by the router at score 0.50 ≥ 0.45. -/
theorem C3_exact_first_then_threshold_witness :
    (cacheGet {} "solve 3x = 9" 0).1 = none ∧
    (searchTopK envD.sim (envD.embed "solve 3x = 9") [ptC3w] 10).find?
        (fun sp => decide (sp.point.payload.question_norm
          = some (normalizeQuestion "solve 3x = 9"))) = some ⟨ptC3w, mkRat 1 2⟩ ∧
    kb_search_tool envD [ptC3w] "solve 3x = 9" = .hit (exactHit ⟨ptC3w, mkRat 1 2⟩) ∧
    (agent_route envD {} [ptC3w] "solve 3x = 9" 0 1 "t").route = "KB" :=
  ⟨rfl, by decide,
    (C3_exact_first_then_threshold envD {} [ptC3w] "solve 3x = 9" 0 1 "t" rfl rfl
      ⟨ptC3w, mkRat 1 2⟩ rfl (by decide)).1,
    (C3_exact_first_then_threshold envD {} [ptC3w] "solve 3x = 9" 0 1 "t" rfl rfl
      ⟨ptC3w, mkRat 1 2⟩ rfl (by decide)).2.2.2.1 (by decide) (by decide)⟩

/-! ## Characterizing the dedup scan of `persist_to_kb` -/

theorem map_eq_self_of {α : Type _} {l : List α} {f : α → α}
    (h : ∀ a ∈ l, f a = a) : l.map f = l := by
  induction l with
  | nil => rfl
  | cons a t ih =>
    simp only [List.map_cons, h a (List.mem_cons_self a t)]
    rw [ih (fun b hb => h b (List.mem_cons_of_mem a hb))]

/-- When no stored record matches the normalized question and none is 0.95-similar,
the dedup scan finds nothing. -/
theorem dedupTarget_none {V : Type} (sim : V → V → ℚ) (qv : V)
    (store : List (Point V)) (nq : String)
    (hnonorm : ∀ p ∈ store, p.payload.question_norm ≠ some nq)
    (hfar : ∀ p ∈ store, sim qv p.vector < mkRat 95 100) :
    dedupTarget sim qv store nq = none := by
  have h1 : (searchTopK sim qv store 5).find?
      (fun sp => decide (sp.point.payload.question_norm = some nq)) = none := by
    rw [List.find?_eq_none]
    intro sp hsp
    obtain ⟨hmem, -⟩ := mem_searchTopK hsp
    simp [hnonorm sp.point hmem]
  have h2 : (searchTopK sim qv store 5).find?
      (fun sp => decide (sp.score ≥ mkRat 95 100)) = none := by
    rw [List.find?_eq_none]
    intro sp hsp
    obtain ⟨hmem, hsc⟩ := mem_searchTopK hsp
    simp only [decide_eq_true_eq, ge_iff_le, not_le]
    rw [hsc]
    exact hfar sp.point hmem
  unfold dedupTarget
  dsimp only
  rw [h1, h2]

/-- When the store holds a unique record with the normalized question, and its
similarity score strictly dominates every other record's, the dedup scan's first
loop finds exactly it. -/
theorem dedupTarget_norm_unique {V : Type} (sim : V → V → ℚ) (qv : V)
    (store : List (Point V)) (nq : String) (p : Point V)
    (hp : p ∈ store) (hnorm : p.payload.question_norm = some nq)
    (hmax : ∀ q ∈ store, q ≠ p → sim qv q.vector < sim qv p.vector)
    (huniq : ∀ q ∈ store, q.payload.question_norm = some nq → q = p)
    (hid : p.id ≠ 0) :
    dedupTarget sim qv store nq = some p.id := by
  have hx : (⟨p, sim qv p.vector⟩ : ScoredPoint V) ∈ searchTopK sim qv store 5 :=
    searchTopK_mem_of_strict_max (by norm_num) hp hmax
  have hfind : (searchTopK sim qv store 5).find?
      (fun sp => decide (sp.point.payload.question_norm = some nq)) =
      some ⟨p, sim qv p.vector⟩ := by
    apply find?_eq_of_unique hx
    · simp [hnorm]
    · intro y hy hpy
      obtain ⟨hmem, hsc⟩ := mem_searchTopK hy
      simp only [decide_eq_true_eq] at hpy
      obtain ⟨pt, sc⟩ := y
      simp only at hmem hpy hsc
      have hptp : pt = p := huniq pt hmem hpy
      subst hptp
      rw [hsc]
  have heff : effId p = some p.id := by
    unfold effId
    rw [if_pos hid]
  unfold dedupTarget
  dsimp only
  rw [hfind]
  dsimp only
  rw [heff]

/-- When no stored record matches the normalized question but a unique record is
0.95-similar (and strictly dominates the rest), the dedup scan's second loop finds
it, yielding whatever `getattr(cand, "id") or payload.get("id")` produces. -/
theorem dedupTarget_sim_unique {V : Type} (sim : V → V → ℚ) (qv : V)
    (store : List (Point V)) (nq : String) (p : Point V)
    (hp : p ∈ store)
    (hnonorm : ∀ q ∈ store, q.payload.question_norm ≠ some nq)
    (hp95 : sim qv p.vector ≥ mkRat 95 100)
    (hothers : ∀ q ∈ store, q ≠ p → sim qv q.vector < mkRat 95 100) :
    dedupTarget sim qv store nq = effId p := by
  have hmax : ∀ q ∈ store, q ≠ p → sim qv q.vector < sim qv p.vector :=
    fun q hq hne => lt_of_lt_of_le (hothers q hq hne) hp95
  have hx : (⟨p, sim qv p.vector⟩ : ScoredPoint V) ∈ searchTopK sim qv store 5 :=
    searchTopK_mem_of_strict_max (by norm_num) hp hmax
  have h1 : (searchTopK sim qv store 5).find?
      (fun sp => decide (sp.point.payload.question_norm = some nq)) = none := by
    rw [List.find?_eq_none]
    intro sp hsp
    obtain ⟨hmem, -⟩ := mem_searchTopK hsp
    simp [hnonorm sp.point hmem]
  have h2 : (searchTopK sim qv store 5).find?
      (fun sp => decide (sp.score ≥ mkRat 95 100)) = some ⟨p, sim qv p.vector⟩ := by
    apply find?_eq_of_unique hx
    · simp only [decide_eq_true_eq]
      exact hp95
    · intro y hy hpy
      obtain ⟨hmem, hsc⟩ := mem_searchTopK hy
      simp only [decide_eq_true_eq] at hpy
      obtain ⟨pt, sc⟩ := y
      simp only at hmem hpy hsc
      have hptp : pt = p := by
        by_contra hne
        exact absurd (hsc ▸ hpy) (not_le.mpr (hothers pt hmem hne))
      subst hptp
      rw [hsc]
  unfold dedupTarget
  dsimp only
  rw [h1, h2]

/-! ## Claim C4 — dedup on upsert -/

/-- The seeded record of the C4 counterexample: its id is 0, as `embed_kb.py` and
`init_qdrant_math_kb.py` assign (`id=idx` from `enumerate`). -/
def ptC4 : Point Nat :=
  { id := 0, vector := 0,
    payload := { question := some "other", question_norm := some "other",
                 answer := some "b" } }

/-- Counterexample to C4: an upsert whose question vector is 0.95-similar (here
identical, similarity 1) to the existing record does **not** update it in place:
the record's id 0 is falsy in `if existing_id:`, so `persist_to_kb` inserts a new
point and the store grows to two records. -/
theorem C4_counterexample :
    envC10.sim (envC10.embed "solve w") ptC4.vector ≥ mkRat 95 100 ∧
    ([ptC4] : List (Point Nat)).length = 1 ∧
    (persist_to_kb envC10 [ptC4] "web" "solve w" (some "a") none none none 13 "t").2
      = [ptC4, Point.mk 13 0 (freshPayload "web" "solve w" (some "a") none none none "t")] ∧
    (persist_to_kb envC10 [ptC4] "web" "solve w" (some "a") none none none 13 "t").2.length
      = 2 := by
  decide

/-- **C4 (amended).** (1) Two `persist_to_kb` upserts of the same question text with
different answers leave exactly one record with that `question_norm` — holding the
second call's answer, under the first call's id — provided the store held no record
with that `question_norm` or 0.95-similar vector beforehand, the first call's fresh
id is nonzero and unused, the embedding is self-similar (cosine 1), and the backend
does not fail. (2) An upsert whose question vector is ≥ 0.95-similar to a unique
existing record whose id is nonzero updates that record's id in place rather than
creating a new record (records with id 0 — as seeded — are exempt: their falsy id
defeats the check, cf. the counterexample). -/
theorem C4_dedup_upsert {V : Type} (env : Env V) (store : List (Point V)) (q : String)
    (o1 o2 : String) (a1 a2 st1 st2 : Option String)
    (src1 src2 : Option (List String)) (md1 md2 : Option MetaInfo)
    (id1 id2 : Nat) (t1 t2 : String)
    (hself : env.sim (env.embed q) (env.embed q) = 1)
    (hnonorm : ∀ p ∈ store, p.payload.question_norm ≠ some (normalizeQuestion q))
    (hfar : ∀ p ∈ store, env.sim (env.embed q) p.vector < mkRat 95 100)
    (hid1 : id1 ≠ 0)
    (hfresh : ∀ p ∈ store, p.id ≠ id1)
    (hsf : env.persistSearchFails = false)
    (huf : env.upsertFails = false) :
    ((persist_to_kb env store o1 q a1 st1 src1 md1 id1 t1).1 = true ∧
     (persist_to_kb env
        (persist_to_kb env store o1 q a1 st1 src1 md1 id1 t1).2
        o2 q a2 st2 src2 md2 id2 t2).1 = true ∧
     (persist_to_kb env
        (persist_to_kb env store o1 q a1 st1 src1 md1 id1 t1).2
        o2 q a2 st2 src2 md2 id2 t2).2.length = store.length + 1 ∧
     ((persist_to_kb env
        (persist_to_kb env store o1 q a1 st1 src1 md1 id1 t1).2
        o2 q a2 st2 src2 md2 id2 t2).2.filter
        (fun p => p.payload.question_norm == some (normalizeQuestion q))).length = 1 ∧
     (∀ p ∈ (persist_to_kb env
        (persist_to_kb env store o1 q a1 st1 src1 md1 id1 t1).2
        o2 q a2 st2 src2 md2 id2 t2).2,
        p.payload.question_norm = some (normalizeQuestion q) →
        p.id = id1 ∧ p.payload.answer = a2 ∧ p.payload.source = some o2)) ∧
    (∀ (store' : List (Point V)) (p : Point V) (o : String) (a st : Option String)
       (src : Option (List String)) (md : Option MetaInfo) (nid : Nat) (t : String),
      p ∈ store' → p.id ≠ 0 →
      (∀ q' ∈ store', q'.payload.question_norm ≠ some (normalizeQuestion q)) →
      env.sim (env.embed q) p.vector ≥ mkRat 95 100 →
      (∀ q' ∈ store', q' ≠ p → env.sim (env.embed q) q'.vector < mkRat 95 100) →
      (persist_to_kb env store' o q a st src md nid t).1 = true ∧
      (persist_to_kb env store' o q a st src md nid t).2 =
        store'.map (fun q' => if q'.id = p.id then
          Point.mk p.id (env.embed q) (freshPayload o q a st src md t) else q') ∧
      (persist_to_kb env store' o q a st src md nid t).2.length = store'.length) := by
  constructor
  · have hded1 : dedupTarget env.sim (env.embed q) store (normalizeQuestion q) = none :=
      dedupTarget_none _ _ _ _ hnonorm hfar
    have hr1 := persist_to_kb_insert env store o1 q a1 st1 src1 md1 id1 t1 hded1 hsf huf
    have happ : upsertPoint store
        (Point.mk id1 (env.embed q) (freshPayload o1 q a1 st1 src1 md1 t1)) =
        store ++ [Point.mk id1 (env.embed q) (freshPayload o1 q a1 st1 src1 md1 t1)] :=
      upsertPoint_append store _ (fun p hp => hfresh p hp)
    rw [happ] at hr1
    have hmem1 : Point.mk id1 (env.embed q) (freshPayload o1 q a1 st1 src1 md1 t1) ∈
        store ++ [Point.mk id1 (env.embed q) (freshPayload o1 q a1 st1 src1 md1 t1)] := by
      simp
    have hmax2 : ∀ q' ∈ store ++
        [Point.mk id1 (env.embed q) (freshPayload o1 q a1 st1 src1 md1 t1)],
        q' ≠ Point.mk id1 (env.embed q) (freshPayload o1 q a1 st1 src1 md1 t1) →
        env.sim (env.embed q) q'.vector <
          env.sim (env.embed q)
            (Point.mk id1 (env.embed q) (freshPayload o1 q a1 st1 src1 md1 t1)).vector := by
      intro q' hq' hne
      rcases List.mem_append.mp hq' with hin | hin
      · have : env.sim (env.embed q)
            (Point.mk id1 (env.embed q) (freshPayload o1 q a1 st1 src1 md1 t1)).vector
            = 1 := hself
        rw [this]
        exact lt_trans (hfar q' hin) (by decide)
      · exact absurd (List.mem_singleton.mp hin) hne
    have huniq2 : ∀ q' ∈ store ++
        [Point.mk id1 (env.embed q) (freshPayload o1 q a1 st1 src1 md1 t1)],
        q'.payload.question_norm = some (normalizeQuestion q) →
        q' = Point.mk id1 (env.embed q) (freshPayload o1 q a1 st1 src1 md1 t1) := by
      intro q' hq' hn
      rcases List.mem_append.mp hq' with hin | hin
      · exact absurd hn (hnonorm q' hin)
      · exact List.mem_singleton.mp hin
    have hded2 : dedupTarget env.sim (env.embed q)
        (store ++ [Point.mk id1 (env.embed q) (freshPayload o1 q a1 st1 src1 md1 t1)])
        (normalizeQuestion q) = some id1 :=
      dedupTarget_norm_unique env.sim (env.embed q) _ _ _ hmem1 rfl hmax2 huniq2 hid1
    have hr2 := persist_to_kb_update env
      (store ++ [Point.mk id1 (env.embed q) (freshPayload o1 q a1 st1 src1 md1 t1)])
      o2 q a2 st2 src2 md2 id2 t2 id1 hded2 hid1 hsf huf
    have hrep : upsertPoint
        (store ++ [Point.mk id1 (env.embed q) (freshPayload o1 q a1 st1 src1 md1 t1)])
        (Point.mk id1 (env.embed q) (freshPayload o2 q a2 st2 src2 md2 t2)) =
        (store ++ [Point.mk id1 (env.embed q) (freshPayload o1 q a1 st1 src1 md1 t1)]).map
          (fun p => if p.id = id1 then
            Point.mk id1 (env.embed q) (freshPayload o2 q a2 st2 src2 md2 t2) else p) :=
      upsertPoint_replace _ _ ⟨_, hmem1, rfl⟩
    have hmapeq : (store ++
        [Point.mk id1 (env.embed q) (freshPayload o1 q a1 st1 src1 md1 t1)]).map
          (fun p => if p.id = id1 then
            Point.mk id1 (env.embed q) (freshPayload o2 q a2 st2 src2 md2 t2) else p) =
        store ++ [Point.mk id1 (env.embed q) (freshPayload o2 q a2 st2 src2 md2 t2)] := by
      rw [List.map_append]
      congr 1
      · exact map_eq_self_of (fun p hp => if_neg (hfresh p hp))
      · simp
    rw [hrep, hmapeq] at hr2
    rw [hr1]
    dsimp only
    rw [hr2]
    refine ⟨rfl, rfl, by simp, ?_, ?_⟩
    · rw [List.filter_append]
      have hnil : store.filter
          (fun p => p.payload.question_norm == some (normalizeQuestion q)) = [] := by
        rw [List.filter_eq_nil_iff]
        intro p hp
        simp [hnonorm p hp]
      rw [hnil]
      simp [freshPayload]
    · intro p hp hn
      rcases List.mem_append.mp hp with hin | hin
      · exact absurd hn (hnonorm p hin)
      · rw [List.mem_singleton.mp hin]
        exact ⟨rfl, rfl, rfl⟩
  · intro store' p o a st src md nid t hp hid hnonorm' hp95 hothers
    have heff : effId p = some p.id := by
      unfold effId
      rw [if_pos hid]
    have hded := dedupTarget_sim_unique env.sim (env.embed q) store'
      (normalizeQuestion q) p hp hnonorm' hp95 hothers
    rw [heff] at hded
    have hr := persist_to_kb_update env store' o q a st src md nid t p.id hded hid hsf huf
    have hrep := upsertPoint_replace store'
      (Point.mk p.id (env.embed q) (freshPayload o q a st src md t)) ⟨p, hp, rfl⟩
    rw [hrep] at hr
    rw [hr]
    exact ⟨rfl, rfl, by simp⟩

/-- Witness for C4 (amended): two upserts of `"solve z"` into an empty store leave
exactly one record, with the second answer under the first id. -/
theorem C4_dedup_upsert_witness :
    envC10.sim (envC10.embed "solve z") (envC10.embed "solve z") = 1 ∧
    ((persist_to_kb envC10 [] "web" "solve z" (some "a1") none none none 11 "t1").1
        = true ∧
     (persist_to_kb envC10
        (persist_to_kb envC10 [] "web" "solve z" (some "a1") none none none 11 "t1").2
        "ai" "solve z" (some "a2") none none none 12 "t2").1 = true ∧
     (persist_to_kb envC10
        (persist_to_kb envC10 [] "web" "solve z" (some "a1") none none none 11 "t1").2
        "ai" "solve z" (some "a2") none none none 12 "t2").2.length
        = ([] : List (Point Nat)).length + 1 ∧
     ((persist_to_kb envC10
        (persist_to_kb envC10 [] "web" "solve z" (some "a1") none none none 11 "t1").2
        "ai" "solve z" (some "a2") none none none 12 "t2").2.filter
        (fun p => p.payload.question_norm == some (normalizeQuestion "solve z"))).length
        = 1 ∧
     (∀ p ∈ (persist_to_kb envC10
        (persist_to_kb envC10 [] "web" "solve z" (some "a1") none none none 11 "t1").2
        "ai" "solve z" (some "a2") none none none 12 "t2").2,
        p.payload.question_norm = some (normalizeQuestion "solve z") →
        p.id = 11 ∧ p.payload.answer = some "a2" ∧ p.payload.source = some "ai")) :=
  ⟨rfl,
    (C4_dedup_upsert envC10 [] "solve z" "web" "ai" (some "a1") (some "a2") none none
      none none none none 11 12 "t1" "t2" rfl (by simp) (by simp) (by decide)
      (by simp) rfl rfl).1⟩

/-! ## Cache lemmas -/

theorem contains_iff_mem {α : Type _} [BEq α] [LawfulBEq α] {l : List α} {a : α} :
    l.contains a = true ↔ a ∈ l := by
  simp [List.contains, List.elem_iff]

/-- Characterization of `_evict_lru_entries` on a well-formed cache (distinct keys):
it keeps exactly the entries outside the `max(1, n // 10)` oldest by `last_access`,
and with distinct `last_access` values every evicted entry is strictly older than
every kept one. -/
theorem evictLRU_spec (c : Cache)
    (hkeys : (c.entries.map (fun e => e.key)).Nodup) :
    (evictLRU c).entries.length
        = c.entries.length - max 1 (c.entries.length / 10) ∧
    (∀ e ∈ (evictLRU c).entries, e ∈ c.entries) ∧
    ((c.entries.map (fun e => e.lastAccess)).Nodup →
      ∀ e ∈ c.entries, e ∉ (evictLRU c).entries →
        ∀ e' ∈ (evictLRU c).entries, e.lastAccess < e'.lastAccess) := by
  classical
  set le := fun a b : CEntry => decide (a.lastAccess ≤ b.lastAccess) with hle
  set s := sortByLe le c.entries with hs
  have hperm : s.Perm c.entries := sortByLe_perm le c.entries
  have hslen : s.length = c.entries.length := hperm.length_eq
  set k := max 1 (s.length / 10) with hk
  obtain ⟨toRemove, htr⟩ : ∃ tr : List String, tr = (s.take k).map (fun e => e.key) :=
    ⟨_, rfl⟩
  have hresult : (evictLRU c).entries
      = c.entries.filter (fun e => !(toRemove.contains e.key)) := by
    rw [htr]
    rfl
  have hkeyss : (s.map (fun e => e.key)).Nodup :=
    ((hperm.map (fun e => e.key)).nodup_iff).mpr hkeys
  have hsplit : s.take k ++ s.drop k = s := List.take_append_drop k s
  have hkeysplit : ((s.take k).map (fun e => e.key)).Nodup ∧
      ((s.drop k).map (fun e => e.key)).Nodup ∧
      ((s.take k).map (fun e => e.key)).Disjoint ((s.drop k).map (fun e => e.key)) := by
    have : ((s.take k).map (fun e => e.key) ++ (s.drop k).map (fun e => e.key)).Nodup := by
      rw [← List.map_append, hsplit]
      exact hkeyss
    exact List.nodup_append.mp this
  have hpredT : ∀ e ∈ s.take k, (!(toRemove.contains e.key)) = false := by
    intro e he
    have hm : e.key ∈ toRemove := by
      rw [htr]
      exact List.mem_map_of_mem (fun e => e.key) he
    rw [contains_iff_mem.mpr hm]
    rfl
  have hpredD : ∀ e ∈ s.drop k, (!(toRemove.contains e.key)) = true := by
    intro e he
    have hnm : e.key ∉ toRemove := by
      intro hc
      rw [htr] at hc
      exact hkeysplit.2.2 hc (List.mem_map_of_mem (fun e => e.key) he)
    have : toRemove.contains e.key = false := by
      cases hb : toRemove.contains e.key
      · rfl
      · exact absurd (contains_iff_mem.mp hb) hnm
    rw [this]
    rfl
  have hfilter_s : s.filter (fun e => !(toRemove.contains e.key)) = s.drop k := by
    conv_lhs => rw [← hsplit]
    rw [List.filter_append]
    rw [List.filter_eq_nil_iff.mpr (fun e he => by
        intro hcon
        rw [hpredT e he] at hcon
        exact Bool.false_ne_true hcon),
      List.filter_eq_self.mpr hpredD]
    rfl
  have hpermres : (evictLRU c).entries.Perm (s.drop k) := by
    rw [hresult, ← hfilter_s]
    exact (hperm.filter _).symm
  refine ⟨?_, ?_, ?_⟩
  · rw [hpermres.length_eq, List.length_drop, hk, hslen]
  · intro e he
    exact List.mem_of_mem_filter (hresult ▸ he)
  · intro hdist e he hnotin e' he'
    have hdists : (s.map (fun e => e.lastAccess)).Nodup :=
      ((hperm.map (fun e => e.lastAccess)).nodup_iff).mpr hdist
    have hlasplit := List.nodup_append.mp (by
      rw [← List.map_append, hsplit]
      exact hdists)
    have hes : e ∈ s := hperm.mem_iff.mpr he
    -- e was filtered out, so its key is in `toRemove`, so e sits in the take-k block
    have hpred : (!(toRemove.contains e.key)) = false := by
      cases hb : (!(toRemove.contains e.key))
      · rfl
      · exact absurd (hresult ▸ List.mem_filter.mpr ⟨he, hb⟩) hnotin
    have hkeymem : e.key ∈ toRemove := by
      cases hb : toRemove.contains e.key
      · rw [hb] at hpred
        exact absurd hpred (by simp)
      · exact contains_iff_mem.mp hb
    have hetake : e ∈ s.take k := by
      rw [htr] at hkeymem
      rcases List.mem_map.mp hkeymem with ⟨e2, he2, hkeq⟩
      have he2s : e2 ∈ s := List.mem_of_mem_take he2
      have he2e : e2 = e := List.inj_on_of_nodup_map hkeyss he2s hes hkeq
      exact he2e ▸ he2
    have hedrop : e' ∈ s.drop k := hpermres.mem_iff.mp he'
    have hsorted : s.Pairwise (fun a b => le a b = true) := by
      refine sortByLe_sorted le ?_ ?_ c.entries
      · intro a b hab
        simp only [hle, decide_eq_false_iff_not, not_le, decide_eq_true_eq] at hab ⊢
        exact le_of_lt hab
      · intro a b d hab hbd
        simp only [hle, decide_eq_true_eq] at hab hbd ⊢
        exact le_trans hab hbd
    have hle' : e.lastAccess ≤ e'.lastAccess := by
      have := (List.pairwise_append.mp (hsplit ▸ hsorted)).2.2 e hetake e' hedrop
      simpa [hle] using this
    have hne : e.lastAccess ≠ e'.lastAccess := by
      intro heq
      exact hlasplit.2.2 (heq ▸ List.mem_map_of_mem (fun x => x.lastAccess) hetake)
        (List.mem_map_of_mem (fun x => x.lastAccess) hedrop)
    exact lt_of_le_of_ne hle' hne

theorem find?_key_cons_pos (e : CEntry) (es : List CEntry) (k : String)
    (he : e.key = k) :
    (e :: es).find? (fun x => x.key == k) = some e :=
  List.find?_cons_of_pos es
    (show (fun x : CEntry => x.key == k) e = true from beq_iff_eq.mpr he)

theorem find?_key_cons_neg (e : CEntry) (es : List CEntry) (k : String)
    (he : ¬ e.key = k) :
    (e :: es).find? (fun x => x.key == k) = es.find? (fun x => x.key == k) :=
  List.find?_cons_of_neg es
    (show ¬ (fun x : CEntry => x.key == k) e = true from by simpa using he)

/-- Looking up key `k` after the in-place replacement that `set` performs on an
existing key finds the new entry. -/
theorem cacheLookup_map_replace (l : List CEntry) (k : String) (newE : CEntry)
    (hk : newE.key = k) (hany : l.any (fun e => e.key == k) = true) :
    (l.map (fun e => if e.key = k then newE else e)).find? (fun e => e.key == k)
      = some newE := by
  induction l with
  | nil => simp at hany
  | cons e es ih =>
    by_cases he : e.key = k
    · simp only [List.map_cons, if_pos he]
      exact List.find?_cons_of_pos _ (beq_iff_eq.mpr hk)
    · simp only [List.map_cons, if_neg he]
      rw [List.find?_cons_of_neg _ (by simpa using he)]
      refine ih ?_
      rcases List.any_eq_true.mp hany with ⟨e', he', hbe⟩
      rcases List.mem_cons.mp he' with rfl | hes
      · exact absurd (beq_iff_eq.mp hbe) he
      · exact List.any_eq_true.mpr ⟨e', hes, hbe⟩

/-- Looking up key `k` after appending the fresh entry (no existing key) finds it. -/
theorem cacheLookup_append (l : List CEntry) (k : String) (newE : CEntry)
    (hk : newE.key = k) (hnone : l.any (fun e => e.key == k) = false) :
    (l ++ [newE]).find? (fun e => e.key == k) = some newE := by
  induction l with
  | nil =>
    simp only [List.nil_append]
    exact List.find?_cons_of_pos _ (beq_iff_eq.mpr hk)
  | cons e es ih =>
    rw [List.any_cons] at hnone
    have he : (e.key == k) = false := by
      cases hb : (e.key == k)
      · rfl
      · rw [hb] at hnone
        simp at hnone
    simp only [List.cons_append]
    rw [List.find?_cons_of_neg _ (by simp [he])]
    refine ih ?_
    cases hb : es.any (fun e => e.key == k)
    · rfl
    · rw [hb] at hnone
      simp at hnone

/-- Looking up key `k` after `get`'s access-statistics update finds the same entry
with bumped statistics. -/
theorem cacheLookup_map_stats (l : List CEntry) (k : String) (now2 : ℤ)
    {e0 : CEntry} (hfind : l.find? (fun e => e.key == k) = some e0) :
    (l.map (fun e' => if e'.key = k then
        { e' with accessCount := e'.accessCount + 1, lastAccess := now2 } else e')).find?
      (fun e => e.key == k) =
      some { e0 with accessCount := e0.accessCount + 1, lastAccess := now2 } := by
  induction l with
  | nil => simp at hfind
  | cons e es ih =>
    by_cases he : e.key = k
    · rw [find?_key_cons_pos e es k he] at hfind
      injection hfind with h0
      subst h0
      simp only [List.map_cons, if_pos he]
      exact find?_key_cons_pos _ _ _ he
    · rw [find?_key_cons_neg e es k he] at hfind
      simp only [List.map_cons, if_neg he]
      rw [find?_key_cons_neg _ _ _ he]
      exact ih hfind

/-- `set` leaves the configured TTL untouched. -/
theorem cacheSet_ttl (c : Cache) (query : String) (r : Res) (rt : String) (now : ℤ) :
    (cacheSet c query r rt now).ttl = c.ttl := by
  unfold cacheSet
  dsimp only
  by_cases h1 : c.entries.length ≥ c.maxSize
  · rw [if_pos h1]
    by_cases h2 : (evictLRU c).entries.any (fun e => e.key == fingerprint query) = true
    · rw [if_pos h2]
      rfl
    · rw [if_neg h2]
      rfl
  · rw [if_neg h1]
    by_cases h2 : c.entries.any (fun e => e.key == fingerprint query) = true
    · rw [if_pos h2]
    · rw [if_neg h2]

/-- `get` leaves the configured TTL untouched. -/
theorem cacheGet_ttl (c : Cache) (query : String) (now : ℤ) :
    (cacheGet c query now).2.ttl = c.ttl := by
  unfold cacheGet
  dsimp only
  rcases hl : cacheLookup c (fingerprint query) with _ | e
  · rfl
  · dsimp only
    split
    · rfl
    · rfl

/-- After a `set`, looking the query up finds exactly the freshly written entry. -/
theorem cacheSet_lookup (c : Cache) (query : String) (r : Res) (rt : String)
    (now : ℤ) :
    cacheLookup (cacheSet c query r rt now) (fingerprint query) =
      some (CEntry.mk (fingerprint query) r rt now query now 1 now) := by
  unfold cacheSet cacheLookup
  dsimp only
  by_cases h1 : c.entries.length ≥ c.maxSize
  · rw [if_pos h1]
    by_cases h2 : (evictLRU c).entries.any (fun e => e.key == fingerprint query) = true
    · rw [if_pos h2]
      exact cacheLookup_map_replace _ _ _ rfl h2
    · rw [if_neg h2]
      exact cacheLookup_append _ _ _ rfl (by simpa using h2)
  · rw [if_neg h1]
    by_cases h2 : c.entries.any (fun e => e.key == fingerprint query) = true
    · rw [if_pos h2]
      exact cacheLookup_map_replace _ _ _ rfl h2
    · rw [if_neg h2]
      exact cacheLookup_append _ _ _ rfl (by simpa using h2)

/-- A repeat `get` within the TTL after a `set` returns the stored result, and the
route info read from the statistics-updated cache is the stored tier label. -/
theorem cacheGet_after_set (c : Cache) (query : String) (r : Res) (rt : String)
    (now now2 : ℤ) (hfresh : now2 - now ≤ c.ttl) :
    (cacheGet (cacheSet c query r rt now) query now2).1 = some r ∧
    getRouteInfo (cacheGet (cacheSet c query r rt now) query now2).2 query now2
      = some rt := by
  have hl := cacheSet_lookup c query r rt now
  have httl := cacheSet_ttl c query r rt now
  have hnotexp :
      ¬ now2 - (CEntry.mk (fingerprint query) r rt now query now 1 now).timestamp
        > (cacheSet c query r rt now).ttl := by
    rw [httl]
    exact not_lt.mpr hfresh
  constructor
  · unfold cacheGet
    dsimp only
    rw [hl]
    dsimp only
    rw [if_neg hnotexp]
  · unfold cacheGet
    dsimp only
    rw [hl]
    dsimp only
    rw [if_neg hnotexp]
    dsimp only
    unfold getRouteInfo cacheLookup
    dsimp only
    rw [cacheLookup_map_stats _ _ _ hl]
    dsimp only
    rw [if_neg (by rw [httl]; exact not_lt.mpr hfresh)]

/-! ## Claim C7 — the eviction invariant -/

/-- The cache of the C7 counterexample: capacity knob set to 0. -/
def cacheC7 : Cache :=
  { entries := [], maxSize := 0, ttl := 10 }

/-- Counterexample to C7: with `max_cache_size = 0` a `set` leaves one entry — the
eviction pass removes nothing from the empty cache and the insert then exceeds the
capacity, so the bound does not hold for every cache state. -/
theorem C7_counterexample :
    cacheC7.maxSize = 0 ∧
    (cacheSet cacheC7 "solve v" { ans := some "a" } "KB" 0).entries.length = 1 ∧
    ¬ ((cacheSet cacheC7 "solve v" { ans := some "a" } "KB" 0).entries.length ≤
        cacheC7.maxSize) := by
  decide

/-- **C7 (amended).** For every well-formed cache state (distinct entry keys,
`max_cache_size ≥ 1`, at most `max_cache_size` entries, distinct `last_access`
values), a `set` never leaves more than `max_cache_size` entries; and when the
cache is at capacity the eviction pass removes exactly the `max(1, n // 10)`
entries with the oldest `last_access`: the kept entries are `n - max(1, n // 10)`
of the current ones and every evicted entry is strictly older than every kept
one. -/
theorem C7_eviction_invariant (c : Cache) (query : String) (result : Res)
    (route : String) (now : ℤ)
    (hmax : 1 ≤ c.maxSize)
    (hlen : c.entries.length ≤ c.maxSize)
    (hkeys : (c.entries.map (fun e => e.key)).Nodup)
    (hdist : (c.entries.map (fun e => e.lastAccess)).Nodup) :
    (cacheSet c query result route now).entries.length ≤ c.maxSize ∧
    (c.entries.length ≥ c.maxSize →
      ((evictLRU c).entries.length
          = c.entries.length - max 1 (c.entries.length / 10) ∧
       (∀ e ∈ (evictLRU c).entries, e ∈ c.entries) ∧
       (∀ e ∈ c.entries, e ∉ (evictLRU c).entries →
          ∀ e' ∈ (evictLRU c).entries, e.lastAccess < e'.lastAccess))) := by
  obtain ⟨hlen', hsub, hord⟩ := evictLRU_spec c hkeys
  refine ⟨?_, fun _ => ⟨hlen', hsub, hord hdist⟩⟩
  unfold cacheSet
  dsimp only
  have hk1 : 1 ≤ max 1 (c.entries.length / 10) := le_max_left _ _
  by_cases hfull : c.entries.length ≥ c.maxSize
  · rw [if_pos hfull]
    have hn : c.entries.length = c.maxSize := le_antisymm hlen hfull
    have hevlen : (evictLRU c).entries.length + 1 ≤ c.maxSize := by
      rw [hlen']
      omega
    by_cases hany : (evictLRU c).entries.any (fun e => e.key == fingerprint query)
        = true
    · rw [if_pos hany]
      dsimp only
      rw [List.length_map]
      omega
    · rw [if_neg hany]
      dsimp only
      rw [List.length_append]
      simpa using hevlen
  · rw [if_neg hfull]
    push_neg at hfull
    by_cases hany : c.entries.any (fun e => e.key == fingerprint query) = true
    · rw [if_pos hany]
      dsimp only
      rw [List.length_map]
      exact hlen
    · rw [if_neg hany]
      dsimp only
      rw [List.length_append]
      simp only [List.length_singleton]
      omega

/-- The cache of the C7 witness: two entries, distinct keys and access times, at
its capacity of 2. -/
def cacheC7w : Cache :=
  { entries :=
      [CEntry.mk "k1" { ans := some "a1" } "KB" 0 "q1" 0 1 0,
       CEntry.mk "k2" { ans := some "a2" } "Web" 0 "q2" 0 1 5],
    maxSize := 2, ttl := 100 }

/-- Witness for C7 (amended): inserting into the at-capacity two-entry cache stays
within the bound, and the eviction pass removes exactly the single oldest entry. -/
theorem C7_eviction_invariant_witness :
    (1 ≤ cacheC7w.maxSize ∧ cacheC7w.entries.length ≤ cacheC7w.maxSize ∧
     (cacheC7w.entries.map (fun e => e.key)).Nodup ∧
     (cacheC7w.entries.map (fun e => e.lastAccess)).Nodup) ∧
    ((cacheSet cacheC7w "solve u" { ans := some "a" } "AI" 7).entries.length ≤
        cacheC7w.maxSize ∧
     (cacheC7w.entries.length ≥ cacheC7w.maxSize →
       ((evictLRU cacheC7w).entries.length
           = cacheC7w.entries.length - max 1 (cacheC7w.entries.length / 10) ∧
        (∀ e ∈ (evictLRU cacheC7w).entries, e ∈ cacheC7w.entries) ∧
        (∀ e ∈ cacheC7w.entries, e ∉ (evictLRU cacheC7w).entries →
           ∀ e' ∈ (evictLRU cacheC7w).entries, e.lastAccess < e'.lastAccess)))) :=
  ⟨⟨by decide, by decide, by decide, by decide⟩,
    C7_eviction_invariant cacheC7w "solve u" { ans := some "a" } "AI" 7
      (by decide) (by decide) (by decide) (by decide)⟩

/-! ## Which cache entry a terminal `agent_route` response writes -/

theorem agent_route_cacheHit {V : Type} (env : Env V) (cache : Cache)
    (store : List (Point V)) (query : String) (now : ℤ) (newId : Nat) (c : String)
    (r : Res) (hr : (cacheGet cache query now).1 = some r) (ht : r.truthy = true) :
    agent_route env cache store query now newId c =
      { route :=
          (match getRouteInfo (cacheGet cache query now).2 query now with
           | some rt => if rt = "" then "Cache" else rt
           | none => "Cache"),
        result := r, confidence := "high", cached := true,
        cache' := (cacheGet cache query now).2, store' := store, invoked := [] } := by
  unfold agent_route
  rcases hc : cacheGet cache query now with ⟨o, c1⟩
  rw [hc] at hr
  simp only at hr
  subst hr
  dsimp only
  rw [if_pos ht]

theorem agent_route_cacheFalsy {V : Type} (env : Env V) (cache : Cache)
    (store : List (Point V)) (query : String) (now : ℤ) (newId : Nat) (c : String)
    (r : Res) (hr : (cacheGet cache query now).1 = some r) (ht : r.truthy = false) :
    agent_route env cache store query now newId c =
      agentGuardStage env (cacheGet cache query now).2 store query now newId c := by
  unfold agent_route
  rcases hc : cacheGet cache query now with ⟨o, c1⟩
  rw [hc] at hr
  simp only at hr
  subst hr
  dsimp only
  rw [if_neg (by rw [ht]; exact Bool.false_ne_true)]

theorem agentAI_cache_write {V : Type} (env : Env V) (cache : Cache)
    (store : List (Point V)) (query : String) (now : ℤ) (newId : Nat) (c : String)
    (inv : List String)
    (hnh : (agentAI env cache store query now newId c inv).route ≠ "Human") :
    (agentAI env cache store query now newId c inv).route = "AI" ∧
    (agentAI env cache store query now newId c inv).cache' =
      cacheSet cache query (agentAI env cache store query now newId c inv).result
        (if (agentAI env cache store query now newId c inv).persisted = true then "KB"
         else "AI") now := by
  by_cases ha : ((env.aiOut query).hasAnswer && !(env.aiOut query).hasError) = true
  · by_cases hp : (env.processRes (env.aiOut query).res).1 = true
    · unfold agentAI
      dsimp only
      rw [if_pos ha, if_pos hp]
      exact ⟨rfl, rfl⟩
    · exfalso
      apply hnh
      unfold agentAI
      dsimp only
      rw [if_pos ha, if_neg hp]
      rfl
  · exfalso
    apply hnh
    unfold agentAI
    dsimp only
    rw [if_neg ha]
    rfl

theorem agentWeb_cache_write {V : Type} (env : Env V) (cache : Cache)
    (store : List (Point V)) (query : String) (now : ℤ) (newId : Nat) (c : String)
    (inv : List String) :
    ((agentWeb env cache store query now newId c inv).route = "Web" ∧
     (agentWeb env cache store query now newId c inv).cache' =
       cacheSet cache query (agentWeb env cache store query now newId c inv).result
         (if (agentWeb env cache store query now newId c inv).persisted = true
          then "KB" else "Web") now) ∨
    agentWeb env cache store query now newId c inv =
      agentAI env cache store query now newId c (inv ++ ["web"]) := by
  by_cases hw : ((env.webOut query).hasAnswer && !(env.webOut query).hasError) = true
  · by_cases hp : (env.processRes (env.webOut query).res).1 = true
    · left
      unfold agentWeb
      dsimp only
      rw [if_pos hw, if_pos hp]
      exact ⟨rfl, rfl⟩
    · right
      unfold agentWeb
      dsimp only
      rw [if_pos hw, if_neg hp]
  · right
    unfold agentWeb
    dsimp only
    rw [if_neg hw]

theorem agentFallback_cache_write {V : Type} (env : Env V) (cache : Cache)
    (store : List (Point V)) (query : String) (now : ℤ) (newId : Nat) (c : String)
    (inv : List String)
    (hnh : (agentFallback env cache store query now newId c inv).route ≠ "Human") :
    ((agentFallback env cache store query now newId c inv).route = "Web" ∨
     (agentFallback env cache store query now newId c inv).route = "AI") ∧
    (agentFallback env cache store query now newId c inv).cache' =
      cacheSet cache query (agentFallback env cache store query now newId c inv).result
        (if (agentFallback env cache store query now newId c inv).persisted = true
         then "KB"
         else (agentFallback env cache store query now newId c inv).route) now := by
  cases hkw : hasInventKeyword query with
  | true =>
    rw [agentFallback_skip _ _ _ _ _ _ _ _ hkw] at hnh ⊢
    obtain ⟨hr, hc⟩ := agentAI_cache_write env cache store query now newId c inv hnh
    rw [hr, hc]
    exact ⟨Or.inr rfl, rfl⟩
  | false =>
    rw [agentFallback_web _ _ _ _ _ _ _ _ hkw] at hnh ⊢
    rcases agentWeb_cache_write env cache store query now newId c inv with ⟨hr, hc⟩ | heq
    · rw [hr, hc]
      exact ⟨Or.inl rfl, rfl⟩
    · rw [heq] at hnh ⊢
      obtain ⟨hr, hc⟩ := agentAI_cache_write env cache store query now newId c
        (inv ++ ["web"]) hnh
      rw [hr, hc]
      exact ⟨Or.inr rfl, rfl⟩

theorem agentGuardStage_cache_write {V : Type} (env : Env V) (cache : Cache)
    (store : List (Point V)) (query : String) (now : ℤ) (newId : Nat) (c : String)
    (hnb : (agentGuardStage env cache store query now newId c).blockedError = false)
    (hnh : (agentGuardStage env cache store query now newId c).route ≠ "Human") :
    ((agentGuardStage env cache store query now newId c).route = "KB" ∨
     (agentGuardStage env cache store query now newId c).route = "Web" ∨
     (agentGuardStage env cache store query now newId c).route = "AI") ∧
    (agentGuardStage env cache store query now newId c).cache' =
      cacheSet cache query (agentGuardStage env cache store query now newId c).result
        (if (agentGuardStage env cache store query now newId c).route = "KB" ∨
            (agentGuardStage env cache store query now newId c).persisted = true
         then "KB"
         else (agentGuardStage env cache store query now newId c).route) now := by
  by_cases hg : env.guardOk query = true
  · rw [agentGuardStage_pass _ _ _ _ _ _ _ hg] at hnh ⊢
    rcases hkb : kb_search_tool env store query with _ | h | _
    · rw [agentKBStage_noMatch _ _ _ _ _ _ _ hkb] at hnh ⊢
      obtain ⟨hr, hc⟩ := agentFallback_cache_write env cache store query now newId c
        ["kb"] hnh
      refine ⟨?_, ?_⟩
      · rcases hr with h | h
        · exact Or.inr (Or.inl h)
        · exact Or.inr (Or.inr h)
      · rw [hc]
        congr 1
        have hne : ¬ (agentFallback env cache store query now newId c ["kb"]).route
            = "KB" := by
          rcases hr with h | h <;> rw [h] <;> decide
        rw [if_congr (or_iff_right hne) rfl rfl]
    · by_cases hsc : h.score ≥ (if h.validated_by_user then mkRat 45 100
          else mkRat 65 100)
      · by_cases hok : (env.processKB h).1 = true
        · rw [agentKBStage_hit_accept _ _ _ _ _ _ _ h hkb hsc hok]
          refine ⟨Or.inl rfl, ?_⟩
          rw [if_pos (Or.inl rfl)]
        · have hflt : agentKBStage env cache store query now newId c =
              agentFallback env cache store query now newId c ["kb"] := by
            unfold agentKBStage
            rw [hkb]
            dsimp only
            rw [if_pos hsc, if_neg hok]
          rw [hflt] at hnh ⊢
          obtain ⟨hr, hc⟩ := agentFallback_cache_write env cache store query now newId c
            ["kb"] hnh
          refine ⟨?_, ?_⟩
          · rcases hr with h' | h'
            · exact Or.inr (Or.inl h')
            · exact Or.inr (Or.inr h')
          · rw [hc]
            congr 1
            have hne : ¬ (agentFallback env cache store query now newId c ["kb"]).route
                = "KB" := by
              rcases hr with h' | h' <;> rw [h'] <;> decide
            rw [if_congr (or_iff_right hne) rfl rfl]
      · rw [agentKBStage_hit_below _ _ _ _ _ _ _ h hkb hsc] at hnh ⊢
        obtain ⟨hr, hc⟩ := agentFallback_cache_write env cache store query now newId c
          ["kb"] hnh
        refine ⟨?_, ?_⟩
        · rcases hr with h' | h'
          · exact Or.inr (Or.inl h')
          · exact Or.inr (Or.inr h')
        · rw [hc]
          congr 1
          have hne : ¬ (agentFallback env cache store query now newId c ["kb"]).route
              = "KB" := by
            rcases hr with h' | h' <;> rw [h'] <;> decide
          rw [if_congr (or_iff_right hne) rfl rfl]
    · rw [agentKBStage_err _ _ _ _ _ _ _ hkb] at hnh ⊢
      obtain ⟨hr, hc⟩ := agentFallback_cache_write env cache store query now newId c
        ["kb"] hnh
      refine ⟨?_, ?_⟩
      · rcases hr with h | h
        · exact Or.inr (Or.inl h)
        · exact Or.inr (Or.inr h)
      · rw [hc]
        congr 1
        have hne : ¬ (agentFallback env cache store query now newId c ["kb"]).route
            = "KB" := by
          rcases hr with h | h <;> rw [h] <;> decide
        rw [if_congr (or_iff_right hne) rfl rfl]
  · exfalso
    have he : agentGuardStage env cache store query now newId c =
        { route := "blocked", result := blockedRes, confidence := "",
          blockedError := true, cache' := cache, store' := store, invoked := [] } := by
      unfold agentGuardStage
      rw [if_neg hg]
    rw [he] at hnb
    exact Bool.false_ne_true hnb.symm

/-- Every terminal non-cached, non-blocked, non-human `agent_route` response has
route KB, Web, or AI, and its post-call cache is exactly a `set` of its own result
under the route it records for repeats: KB when routed KB or when the answer was
persisted to the knowledge store, else the producing tier. -/
theorem agent_route_cache_write {V : Type} (env : Env V) (cache : Cache)
    (store : List (Point V)) (query : String) (now : ℤ) (newId : Nat) (c : String)
    (hnc : (agent_route env cache store query now newId c).cached = false)
    (hnb : (agent_route env cache store query now newId c).blockedError = false)
    (hnh : (agent_route env cache store query now newId c).route ≠ "Human") :
    ((agent_route env cache store query now newId c).route = "KB" ∨
     (agent_route env cache store query now newId c).route = "Web" ∨
     (agent_route env cache store query now newId c).route = "AI") ∧
    ∃ c1 : Cache, c1.ttl = cache.ttl ∧
      (agent_route env cache store query now newId c).cache' =
        cacheSet c1 query (agent_route env cache store query now newId c).result
          (if (agent_route env cache store query now newId c).route = "KB" ∨
              (agent_route env cache store query now newId c).persisted = true
           then "KB"
           else (agent_route env cache store query now newId c).route) now := by
  rcases ho : (cacheGet cache query now).1 with _ | r
  · rw [agent_route_cacheMiss _ _ _ _ _ _ _ ho] at hnb hnh ⊢
    obtain ⟨hr, hc⟩ := agentGuardStage_cache_write env (cacheGet cache query now).2
      store query now newId c hnb hnh
    exact ⟨hr, (cacheGet cache query now).2, cacheGet_ttl _ _ _, hc⟩
  · by_cases ht : r.truthy = true
    · exfalso
      rw [agent_route_cacheHit env cache store query now newId c r ho ht] at hnc
      exact Bool.false_ne_true hnc.symm
    · have ht' : r.truthy = false := by
        cases hb : r.truthy
        · rfl
        · exact absurd hb ht
      rw [agent_route_cacheFalsy env cache store query now newId c r ho ht'] at hnb hnh ⊢
      obtain ⟨hr, hc⟩ := agentGuardStage_cache_write env (cacheGet cache query now).2
        store query now newId c hnb hnh
      exact ⟨hr, (cacheGet cache query now).2, cacheGet_ttl _ _ _, hc⟩

/-! ## Claim C5 — what a repeat query within the TTL returns -/

/-- Counterexample to C5: the first call answers from the web and persists to the
KB, so the cache records route "KB"; the repeat within the TTL is a cache hit that
returns route "KB" — not the first call's route "Web". -/
theorem C5_counterexample :
    (agent_route envD {} [] "solve p" 0 21 "t1").route = "Web" ∧
    (agent_route envD {} [] "solve p" 0 21 "t1").persisted = true ∧
    (agent_route envD
       (agent_route envD {} [] "solve p" 0 21 "t1").cache'
       (agent_route envD {} [] "solve p" 0 21 "t1").store'
       "solve p" 1 22 "t2").cached = true ∧
    (agent_route envD
       (agent_route envD {} [] "solve p" 0 21 "t1").cache'
       (agent_route envD {} [] "solve p" 0 21 "t1").store'
       "solve p" 1 22 "t2").route = "KB" := by
  decide

/-- **C5 (amended).** For any query whose first routing call produced a non-blocked,
non-human, non-cached, truthy answer, a second call within the TTL is a cache hit:
it returns the same result, invokes no downstream tier, and leaves the store
untouched — but its route label is the label recorded in the cache, namely "KB"
whenever the first answer was routed KB **or was persisted to the knowledge
store**, and the first call's tier label only otherwise. -/
theorem C5_repeat_within_ttl {V : Type} (env : Env V) (cache : Cache)
    (store : List (Point V)) (query : String) (now1 now2 : ℤ)
    (newId1 newId2 : Nat) (c1s c2s : String) (O1 : AgentOut V)
    (hO1 : O1 = agent_route env cache store query now1 newId1 c1s)
    (hnc : O1.cached = false)
    (hnb : O1.blockedError = false)
    (hnh : O1.route ≠ "Human")
    (htruthy : O1.result.truthy = true)
    (hfresh : now2 - now1 ≤ cache.ttl) :
    (agent_route env O1.cache' O1.store' query now2 newId2 c2s).cached = true ∧
    (agent_route env O1.cache' O1.store' query now2 newId2 c2s).result = O1.result ∧
    (agent_route env O1.cache' O1.store' query now2 newId2 c2s).invoked = [] ∧
    (agent_route env O1.cache' O1.store' query now2 newId2 c2s).store' = O1.store' ∧
    (agent_route env O1.cache' O1.store' query now2 newId2 c2s).route =
      (if O1.route = "KB" ∨ O1.persisted = true then "KB" else O1.route) := by
  obtain ⟨hroutes, c1, hc1ttl, hc'⟩ := agent_route_cache_write env cache store query
    now1 newId1 c1s (hO1 ▸ hnc) (hO1 ▸ hnb) (hO1 ▸ hnh)
  rw [← hO1] at hroutes hc'
  set RT := (if O1.route = "KB" ∨ O1.persisted = true then "KB" else O1.route) with hRT
  have hfresh' : now2 - now1 ≤ c1.ttl := by
    rw [hc1ttl]
    exact hfresh
  have hget := cacheGet_after_set c1 query O1.result RT now1 now2 hfresh'
  have hr : (cacheGet O1.cache' query now2).1 = some O1.result := by
    rw [hc']
    exact hget.1
  have hri : getRouteInfo (cacheGet O1.cache' query now2).2 query now2 = some RT := by
    rw [hc']
    exact hget.2
  rw [agent_route_cacheHit env O1.cache' O1.store' query now2 newId2 c2s O1.result hr
    htruthy]
  refine ⟨rfl, rfl, rfl, rfl, ?_⟩
  dsimp only
  rw [hri]
  have hRTne : ¬ RT = "" := by
    rw [hRT]
    by_cases hcond : (O1.route = "KB" ∨ O1.persisted = true)
    · rw [if_pos hcond]
      decide
    · rw [if_neg hcond]
      rcases hroutes with h | h | h <;> rw [h] <;> decide
  show (if RT = "" then "Cache" else RT) = RT
  rw [if_neg hRTne]

/-- Witness for C5 (amended): with an empty cache and store, the first call routes
Web and persists; the repeat at time 1 within the 24-hour TTL is a cache hit with
the same result, no tiers invoked, and route "KB" per the amended label rule. -/
theorem C5_repeat_within_ttl_witness :
    ((agent_route envD {} [] "solve p" 0 21 "t1").cached = false ∧
     (agent_route envD {} [] "solve p" 0 21 "t1").blockedError = false ∧
     (agent_route envD {} [] "solve p" 0 21 "t1").route ≠ "Human" ∧
     (agent_route envD {} [] "solve p" 0 21 "t1").result.truthy = true ∧
     ((1 : ℤ) - 0 ≤ (({} : Cache)).ttl)) ∧
    ((agent_route envD
        (agent_route envD {} [] "solve p" 0 21 "t1").cache'
        (agent_route envD {} [] "solve p" 0 21 "t1").store'
        "solve p" 1 22 "t2").cached = true ∧
     (agent_route envD
        (agent_route envD {} [] "solve p" 0 21 "t1").cache'
        (agent_route envD {} [] "solve p" 0 21 "t1").store'
        "solve p" 1 22 "t2").result = (agent_route envD {} [] "solve p" 0 21 "t1").result ∧
     (agent_route envD
        (agent_route envD {} [] "solve p" 0 21 "t1").cache'
        (agent_route envD {} [] "solve p" 0 21 "t1").store'
        "solve p" 1 22 "t2").invoked = [] ∧
     (agent_route envD
        (agent_route envD {} [] "solve p" 0 21 "t1").cache'
        (agent_route envD {} [] "solve p" 0 21 "t1").store'
        "solve p" 1 22 "t2").store' = (agent_route envD {} [] "solve p" 0 21 "t1").store' ∧
     (agent_route envD
        (agent_route envD {} [] "solve p" 0 21 "t1").cache'
        (agent_route envD {} [] "solve p" 0 21 "t1").store'
        "solve p" 1 22 "t2").route =
       (if (agent_route envD {} [] "solve p" 0 21 "t1").route = "KB" ∨
           (agent_route envD {} [] "solve p" 0 21 "t1").persisted = true
        then "KB" else (agent_route envD {} [] "solve p" 0 21 "t1").route)) :=
  ⟨⟨by decide, by decide, by decide, by decide, by decide⟩,
    C5_repeat_within_ttl envD {} [] "solve p" 0 1 21 22 "t1" "t2"
      (agent_route envD {} [] "solve p" 0 21 "t1") rfl
      (by decide) (by decide) (by decide) (by decide) (by decide)⟩

end MathAgent
